import Mathlib

/-!
Verification of the instagram-posts repository.

Shallow embedding of:
  * src/src/parse.py    (payload-to-record extraction layer)
  * src/instagram.py    (InstagramScraper.parse_comments, scrape_user_posts)
  * src/src/main.py     (scrape_post retry, fetch_post_batch_with_proxy,
                         fetch_posts_with_proxy, fetch_user_with_proxy)

JSON payloads are modelled as structures whose fields are exactly the paths
read by the jmespath queries in the source; a missing/null key is `none`.
jmespath list projections (`edges[].node...`) are modelled pre-applied, so a
field such as `caption_texts` holds the already-projected list of texts.
Network calls are modelled by oracles giving each call's outcome.  Python
exceptions are modelled with `Except`; `PyErr.typeError` stands for a
`TypeError` (e.g. `len(None)` or iterating `None`), `PyErr.nameError` for a
`NameError` (reading a never-assigned local), `PyErr.exn` for any other
uncaught exception.
-/

namespace InstaPosts

/-- Python exceptions relevant to the embedded control flow. -/
inductive PyErr where
  | typeError
  | nameError
  | exn
deriving Repr, DecidableEq

/-! ## Payload model -/

/-- `page_info` object of a comment connection or a timeline page. -/
structure PageInfo where
  has_next_page : Bool
  end_cursor : Option String
deriving Repr, DecidableEq, Inhabited

/-- One `node` under `edges[]` of a comment connection.  Union of the fields
read by `parse_comment` (src/parse.py) and by both branches of
`InstagramScraper.parse_comments` (instagram.py). -/
structure RawCommentNode where
  id : Option String
  text : Option String
  created_at : Option Int
  owner_id : Option String                 -- owner.id
  owner_username : Option String           -- owner.username
  owner_is_verified : Option Bool          -- owner.is_verified
  viewer_has_liked : Option Bool
  edge_liked_by_count : Option Int         -- edge_liked_by.count
  edge_threaded_comments_count : Option Int
  did_report_as_spam : Option Bool
deriving Repr, DecidableEq, Inhabited

/-- A comment connection (`edge_media_to_comment` or
`edge_media_to_parent_comment`). -/
structure CommentConn where
  count : Option Int
  page_info : Option PageInfo
  edges : Option (List RawCommentNode)
deriving Repr, DecidableEq, Inhabited

/-- The media-related fields of a payload object, read by `parse_image` and
`parse_video`.  Both are applied to the top-level post payload and (for
`parse_image`) to each sidecar child node, which is why these fields are
grouped; `RawPost.media` holds the same underlying object's fields. -/
structure RawMediaNode where
  shortcode : Option String
  display_url : Option String
  accessibility_caption : Option String
  fact_check_overall_rating : Option String
  fact_check_information : Option String
  sensitivity_friction_info : Option String
  video_url : Option String
  video_view_count : Option Int
  video_play_count : Option Int
deriving Repr, DecidableEq, Inhabited

/-- A post payload (`data.xdt_shortcode_media`, or a timeline `edges[].node`).
Fields are the paths read by `parse_post` / `parse_comment`; list projections
are pre-applied. -/
structure RawPost where
  media : RawMediaNode
  id : Option String
  taken_at_timestamp : Option Int
  owner_username : Option String
  caption_texts : Option (List String)     -- edge_media_to_caption.edges[].node.text
  n_likes_count : Option Int               -- edge_media_preview_like.count
  location_name : Option String            -- location.name
  is_video : Option Bool
  is_paid_partnership : Option Bool
  tagged_users : Option (List String)      -- edge_media_to_tagged_user.edges[].node.user.username
  comments_disabled : Option Bool
  edge_media_to_comment : Option CommentConn
  edge_media_to_parent_comment : Option CommentConn
  typename : Option String                 -- __typename
  sidecar_children : Option (List RawMediaNode)  -- edge_sidecar_to_children.edges[].node
deriving Repr, DecidableEq, Inhabited

/-! ## Extraction layer: src/src/parse.py -/

/-- One entry of the `comments` list built by `parse_comment`. -/
structure CommentEntry where
  text : Option String
  created_at : Option Int
  username : Option String
  n_likes : Option Int
  n_replies : Option Int
  spam : Option Bool
deriving Repr, DecidableEq

/-- Result of `parse_comment` (src/parse.py). -/
structure ParsedComments where
  n_comments : Option Int
  comments_disabled : Option Bool
  comments_next_page : Option String
  comments_has_next_page : Option Bool
  comments : Option (List CommentEntry)
deriving Repr, DecidableEq

/-- The per-node multiselect inside `parse_comment`'s second query. -/
def commentNodeEntry (n : RawCommentNode) : CommentEntry :=
  { text := n.text
    created_at := n.created_at
    username := n.owner_username
    n_likes := n.edge_liked_by_count
    n_replies := n.edge_threaded_comments_count
    spam := n.did_report_as_spam }

/-- `parse_comment` (src/parse.py, lines 3-31).  All paths go through
`edge_media_to_parent_comment`; the function is total on dict payloads. -/
def parse_comment (data : RawPost) : ParsedComments :=
  { n_comments := data.edge_media_to_parent_comment.bind CommentConn.count
    comments_disabled := data.comments_disabled
    comments_next_page :=
      (data.edge_media_to_parent_comment.bind CommentConn.page_info).bind PageInfo.end_cursor
    comments_has_next_page :=
      (data.edge_media_to_parent_comment.bind CommentConn.page_info).map PageInfo.has_next_page
    comments :=
      (data.edge_media_to_parent_comment.bind CommentConn.edges).map (List.map commentNodeEntry) }

/-- Result of `parse_image` (src/parse.py); the field name
`sensitivitiy_information` keeps the source's spelling. -/
structure ImageRecord where
  shortcode : Option String
  url : Option String
  alt_text : Option String
  factcheck_rating : Option String
  factcheck_information : Option String
  sensitivitiy_information : Option String
deriving Repr, DecidableEq

/-- Result of `parse_video` (src/parse.py). -/
structure VideoRecord where
  shortcode : Option String
  url : Option String
  alt_text : Option String
  factcheck_rating : Option String
  factcheck_information : Option String
  sensitivitiy_information : Option String
  video_views : Option Int
  video_plays : Option Int
deriving Repr, DecidableEq

/-- `parse_image` (src/parse.py, lines 46-59). -/
def parse_image (d : RawMediaNode) : ImageRecord :=
  { shortcode := d.shortcode
    url := d.display_url
    alt_text := d.accessibility_caption
    factcheck_rating := d.fact_check_overall_rating
    factcheck_information := d.fact_check_information
    sensitivitiy_information := d.sensitivity_friction_info }

/-- `parse_video` (src/parse.py, lines 61-76). -/
def parse_video (d : RawMediaNode) : VideoRecord :=
  { shortcode := d.shortcode
    url := d.video_url
    alt_text := d.accessibility_caption
    factcheck_rating := d.fact_check_overall_rating
    factcheck_information := d.fact_check_information
    sensitivitiy_information := d.sensitivity_friction_info
    video_views := d.video_view_count
    video_plays := d.video_play_count }

/-- `parse_sidecar` (src/parse.py, lines 33-44): iterating `sidecar['sidecar']`
raises `TypeError` when the query returned `None` (missing
`edge_sidecar_to_children`). -/
def parse_sidecar (data : RawPost) : Except PyErr (List ImageRecord) :=
  match data.sidecar_children with
  | none => Except.error PyErr.typeError
  | some children => Except.ok (children.map parse_image)

/-- Result of `parse_post` (src/parse.py).  The `caption` value is
heterogeneous in the source: the joined string when the caption list is
non-empty, otherwise the (list-valued) query result itself. -/
structure PostRecord where
  id : Option String
  shortcode : Option String
  post_created : Option Int
  username : Option String
  caption : List String ⊕ String
  n_likes : Option Int
  location : Option String
  is_video : Option Bool
  is_paid_partnership : Option Bool
  tagged_users : Option (List String)
  comments : ParsedComments
  images : Option (List ImageRecord)
  videos : Option (List VideoRecord)
deriving Repr, DecidableEq

/-- The media dispatch of `parse_post` (src/parse.py, lines 103-110), keyed on
`data.get("__typename")`; an unrecognized tag adds neither key. -/
def mediaDispatch (data : RawPost) :
    Except PyErr (Option (List ImageRecord) × Option (List VideoRecord)) :=
  let t := data.typename
  if t = some "XDTGraphImage" ∨ t = some "GraphImage" then
    Except.ok (some [parse_image data.media], none)
  else if t = some "XDTGraphVideo" ∨ t = some "GraphVideo" then
    Except.ok (none, some [parse_video data.media])
  else if t = some "XDTGraphSidecar" ∨ t = some "GraphSidecar" then
    match parse_sidecar data with
    | Except.error e => Except.error e
    | Except.ok imgs => Except.ok (some imgs, none)
  else
    Except.ok (none, none)

/-- `parse_post` (src/parse.py, lines 78-112).  `len(result["caption"])`
raises `TypeError` when the caption query returned `None`; a non-empty caption
list is joined with `"\n\n"`, an empty one is left as the empty list. -/
def parse_post (data : RawPost) : Except PyErr PostRecord :=
  match data.caption_texts with
  | none => Except.error PyErr.typeError
  | some caps =>
    match mediaDispatch data with
    | Except.error e => Except.error e
    | Except.ok (imgs, vids) =>
      Except.ok
        { id := data.id
          shortcode := data.media.shortcode
          post_created := data.taken_at_timestamp
          username := data.owner_username
          caption :=
            if caps.length > 0 then Sum.inr (String.intercalate "\n\n" caps) else Sum.inl caps
          n_likes := data.n_likes_count
          location := data.location_name
          is_video := data.is_video
          is_paid_partnership := data.is_paid_partnership
          tagged_users := data.tagged_users
          comments := parse_comment data
          images := imgs
          videos := vids }

/-! ## Extraction layer: instagram.py (InstagramScraper) -/

/-- One entry of the `comments` list built by `InstagramScraper.parse_comments`.
Union of the fields of its two query branches; a field absent from the branch
that produced the entry is `none` (`owner_id` only exists in the top-level
branch, `likes` only in the parent-comment branch). -/
structure IGCommentEntry where
  id : Option String
  text : Option String
  created_at : Option Int
  owner_id : Option String
  owner : Option String
  owner_verified : Option Bool
  viewer_has_liked : Option Bool
  likes : Option Int
deriving Repr, DecidableEq

/-- Result of `InstagramScraper.parse_comments`. -/
structure IGComments where
  comments_count : Option Int
  comments_disabled : Option Bool
  comments_next_page : Option String
  comments : Option (List IGCommentEntry)
deriving Repr, DecidableEq

namespace InstagramScraper

/-- Per-node multiselect of the `edge_media_to_comment` branch of
`InstagramScraper.parse_comments` (instagram.py, lines 119-135). -/
def topCommentEntry (n : RawCommentNode) : IGCommentEntry :=
  { id := n.id
    text := n.text
    created_at := n.created_at
    owner_id := n.owner_id
    owner := n.owner_username
    owner_verified := n.owner_is_verified
    viewer_has_liked := n.viewer_has_liked
    likes := none }

/-- Per-node multiselect of the `edge_media_to_parent_comment` branch of
`InstagramScraper.parse_comments` (instagram.py, lines 137-153). -/
def parentCommentEntry (n : RawCommentNode) : IGCommentEntry :=
  { id := n.id
    text := n.text
    created_at := n.created_at
    owner_id := none
    owner := n.owner_username
    owner_verified := n.owner_is_verified
    viewer_has_liked := n.viewer_has_liked
    likes := n.edge_liked_by_count }

/-- `InstagramScraper.parse_comments` (instagram.py, lines 115-153): branches
on `"edge_media_to_comment" in data`. -/
def parse_comments (data : RawPost) : IGComments :=
  match data.edge_media_to_comment with
  | some conn =>
    { comments_count := conn.count
      comments_disabled := data.comments_disabled
      comments_next_page := conn.page_info.bind PageInfo.end_cursor
      comments := conn.edges.map (List.map topCommentEntry) }
  | none =>
    { comments_count := data.edge_media_to_parent_comment.bind CommentConn.count
      comments_disabled := data.comments_disabled
      comments_next_page :=
        (data.edge_media_to_parent_comment.bind CommentConn.page_info).bind PageInfo.end_cursor
      comments :=
        (data.edge_media_to_parent_comment.bind CommentConn.edges).map
          (List.map parentCommentEntry) }

end InstagramScraper

/-! ## Claims C5, C6, C8: the extraction layer -/

/-- A payload carrying its comment data only in the top-level
`edge_media_to_comment` shape (count 5, with a cursor), with no
`edge_media_to_parent_comment` key. -/
def topShapePayload : RawPost :=
  { (default : RawPost) with
      comments_disabled := some false
      edge_media_to_comment :=
        some { count := some 5
               page_info := some { has_next_page := true, end_cursor := some "QQ" }
               edges := some [] } }

/-- C5 counterexample: on a payload whose comment data is present only in the
top-level `edge_media_to_comment` shape, the pipeline extractor
`parse_comment` (src/parse.py) extracts nothing (it always assumes the
parent-comment shape), while `InstagramScraper.parse_comments`
(instagram.py) does find the comment count and cursor.  Hence "comment
extraction ... never assuming one shape" is false for the pipeline's
extractor. -/
theorem c5_counterexample :
    (parse_comment topShapePayload).n_comments = none ∧
    (parse_comment topShapePayload).comments_next_page = none ∧
    (parse_comment topShapePayload).comments = none ∧
    (InstagramScraper.parse_comments topShapePayload).comments_count = some 5 ∧
    (InstagramScraper.parse_comments topShapePayload).comments_next_page = some "QQ" := by
  refine ⟨rfl, rfl, rfl, rfl, rfl⟩

/-- C5 (amended): `InstagramScraper.parse_comments` (instagram.py) detects
which of the two comment shapes is present and extracts count, disabled flag,
cursor and comment list from that shape; the pipeline extractor
`parse_comment` (src/parse.py) does not detect anything: it reads only the
parent-comment shape, ignoring `edge_media_to_comment` entirely, and yields
null fields when only the top-level shape is present. -/
theorem c5_amended :
    (∀ data conn, data.edge_media_to_comment = some conn →
      (InstagramScraper.parse_comments data).comments_count = conn.count ∧
      (InstagramScraper.parse_comments data).comments_next_page
          = conn.page_info.bind PageInfo.end_cursor ∧
      (InstagramScraper.parse_comments data).comments
          = conn.edges.map (List.map InstagramScraper.topCommentEntry)) ∧
    (∀ data conn, data.edge_media_to_comment = none →
        data.edge_media_to_parent_comment = some conn →
      (InstagramScraper.parse_comments data).comments_count = conn.count ∧
      (InstagramScraper.parse_comments data).comments_next_page
          = conn.page_info.bind PageInfo.end_cursor ∧
      (InstagramScraper.parse_comments data).comments
          = conn.edges.map (List.map InstagramScraper.parentCommentEntry)) ∧
    (∀ data, parse_comment data = parse_comment { data with edge_media_to_comment := none }) ∧
    (∀ data, data.edge_media_to_parent_comment = none →
      (parse_comment data).n_comments = none ∧ (parse_comment data).comments = none) := by
  refine ⟨?_, ?_, ?_, ?_⟩
  · intro data conn h
    simp [InstagramScraper.parse_comments, h]
  · intro data conn h h2
    simp [InstagramScraper.parse_comments, h, h2]
  · intro data
    rfl
  · intro data h
    simp [parse_comment, h]

/-- A payload carrying its comment data only in the nested
`edge_media_to_parent_comment` shape. -/
def parentShapePayload : RawPost :=
  { (default : RawPost) with
      edge_media_to_parent_comment := some { count := some 7, page_info := none, edges := none } }

/-- C5 witness: the amended theorem applied at concrete payloads. -/
theorem c5_witness :
    (InstagramScraper.parse_comments topShapePayload).comments_count = some 5 ∧
    (InstagramScraper.parse_comments parentShapePayload).comments_count = some 7 ∧
    (parse_comment topShapePayload).n_comments = none := by
  refine ⟨?_, ?_, ?_⟩
  · exact (c5_amended.1 topShapePayload
      { count := some 5
        page_info := some { has_next_page := true, end_cursor := some "QQ" }
        edges := some [] } rfl).1
  · exact (c5_amended.2.1 parentShapePayload
      { count := some 7, page_info := none, edges := none } rfl rfl).1
  · exact (c5_amended.2.2.2 topShapePayload rfl).1

/-- A payload with an empty caption edge list and no other content; parsing
succeeds and must show what the caption field becomes. -/
def emptyCaptionPayload : RawPost :=
  { (default : RawPost) with caption_texts := some [] }

/-- C6 counterexample: on a payload whose caption edge list is empty,
`parse_post` succeeds but leaves the caption as the empty *list* (the branch
`len(result["caption"]) > 0` is false, so the join never runs and no string is
produced); the claim says the extracted caption equals the empty string. -/
theorem c6_counterexample :
    (parse_post emptyCaptionPayload).map PostRecord.caption = Except.ok (Sum.inl []) ∧
    (Sum.inl [] : List String ⊕ String) ≠ Sum.inr "" := by
  exact ⟨rfl, by simp⟩

/-- C6 (amended): `parse_post` joins a caption list `["a","b"]` into the
string `"a\n\nb"`; an *empty* caption list is left unchanged as the empty
list (no error is raised, but no empty string is produced either). -/
theorem c6_amended (data : RawPost) (r : PostRecord) (h : parse_post data = Except.ok r) :
    (data.caption_texts = some ["a", "b"] → r.caption = Sum.inr "a\n\nb") ∧
    (data.caption_texts = some [] → r.caption = Sum.inl []) := by
  constructor
  · intro hc
    unfold parse_post at h
    rw [hc] at h
    cases hm : mediaDispatch data with
    | error e => rw [hm] at h; cases h
    | ok pair =>
      rw [hm] at h
      cases pair
      simp only [List.length_cons, gt_iff_lt, Except.ok.injEq] at h
      rw [← h]
      rfl
  · intro hc
    unfold parse_post at h
    rw [hc] at h
    cases hm : mediaDispatch data with
    | error e => rw [hm] at h; cases h
    | ok pair =>
      rw [hm] at h
      cases pair
      simp only [List.length_nil, gt_iff_lt, Except.ok.injEq] at h
      rw [← h]
      rfl

/-- C6 witness: the amended theorem applied at concrete payloads. -/
theorem c6_witness :
    (parse_post { (default : RawPost) with caption_texts := some ["a", "b"] }).map
        PostRecord.caption = Except.ok (Sum.inr "a\n\nb") ∧
    (parse_post emptyCaptionPayload).map PostRecord.caption = Except.ok (Sum.inl []) := by
  constructor
  · have h := c6_amended { (default : RawPost) with caption_texts := some ["a", "b"] }
      { id := none, shortcode := none, post_created := none, username := none,
        caption := Sum.inr "a\n\nb", n_likes := none, location := none, is_video := none,
        is_paid_partnership := none, tagged_users := none,
        comments := parse_comment { (default : RawPost) with caption_texts := some ["a", "b"] },
        images := none, videos := none } rfl
    rw [show (parse_post { (default : RawPost) with caption_texts := some ["a", "b"] }) =
        Except.ok _ from rfl]
    exact congrArg Except.ok (h.1 rfl)
  · have h := c6_amended emptyCaptionPayload
      { id := none, shortcode := none, post_created := none, username := none,
        caption := Sum.inl [], n_likes := none, location := none, is_video := none,
        is_paid_partnership := none, tagged_users := none,
        comments := parse_comment emptyCaptionPayload,
        images := none, videos := none } rfl
    rw [show (parse_post emptyCaptionPayload) = Except.ok _ from rfl]
    exact congrArg Except.ok (h.2 rfl)

/-- The type tags recognized by the media dispatch of `parse_post`. -/
def recognizedTag (t : Option String) : Prop :=
  t = some "XDTGraphImage" ∨ t = some "GraphImage" ∨
  t = some "XDTGraphVideo" ∨ t = some "GraphVideo" ∨
  t = some "XDTGraphSidecar" ∨ t = some "GraphSidecar"

instance (t : Option String) : Decidable (recognizedTag t) := by
  unfold recognizedTag
  infer_instance

/-- C8: media extraction dispatches on `__typename` into exactly one of
Image, Video or Sidecar: a Video-tagged payload never gets an `images` field
and an Image-tagged one never gets a `videos` field; a Sidecar-tagged payload
yields one `ImageRecord` per carousel child, in child order; an unrecognized
tag yields a record with neither media field, and does not by itself make the
post fail to parse. -/
theorem c8_media_dispatch :
    (∀ data r, parse_post data = Except.ok r →
      ((data.typename = some "XDTGraphVideo" ∨ data.typename = some "GraphVideo") →
        r.images = none ∧ r.videos = some [parse_video data.media]) ∧
      ((data.typename = some "XDTGraphImage" ∨ data.typename = some "GraphImage") →
        r.videos = none ∧ r.images = some [parse_image data.media]) ∧
      ((data.typename = some "XDTGraphSidecar" ∨ data.typename = some "GraphSidecar") →
        ∃ children, data.sidecar_children = some children ∧
          r.images = some (children.map parse_image) ∧ r.videos = none) ∧
      (¬ recognizedTag data.typename → r.images = none ∧ r.videos = none)) ∧
    (∀ data caps, data.caption_texts = some caps → ¬ recognizedTag data.typename →
      ∃ r, parse_post data = Except.ok r) := by
  constructor
  · intro data r h
    unfold parse_post at h
    cases hc : data.caption_texts with
    | none => rw [hc] at h; cases h
    | some caps =>
      rw [hc] at h
      unfold mediaDispatch at h
      refine ⟨?_, ?_, ?_, ?_⟩
      · intro ht
        have hni : ¬ (data.typename = some "XDTGraphImage" ∨ data.typename = some "GraphImage") := by
          rcases ht with ht | ht <;> rw [ht] <;> simp
        rw [if_neg hni, if_pos ht] at h
        cases h
        exact ⟨rfl, rfl⟩
      · intro ht
        rw [if_pos ht] at h
        cases h
        exact ⟨rfl, rfl⟩
      · intro ht
        have hni : ¬ (data.typename = some "XDTGraphImage" ∨ data.typename = some "GraphImage") := by
          rcases ht with ht | ht <;> rw [ht] <;> simp
        have hnv : ¬ (data.typename = some "XDTGraphVideo" ∨ data.typename = some "GraphVideo") := by
          rcases ht with ht | ht <;> rw [ht] <;> simp
        rw [if_neg hni, if_neg hnv, if_pos ht] at h
        unfold parse_sidecar at h
        cases hs : data.sidecar_children with
        | none => rw [hs] at h; cases h
        | some children =>
          rw [hs] at h
          cases h
          exact ⟨children, rfl, rfl, rfl⟩
      · intro ht
        unfold recognizedTag at ht
        push_neg at ht
        obtain ⟨h1, h2, h3, h4, h5, h6⟩ := ht
        rw [if_neg (by tauto), if_neg (by tauto), if_neg (by tauto)] at h
        cases h
        exact ⟨rfl, rfl⟩
  · intro data caps hc ht
    unfold recognizedTag at ht
    push_neg at ht
    obtain ⟨h1, h2, h3, h4, h5, h6⟩ := ht
    refine ⟨{ id := data.id, shortcode := data.media.shortcode,
              post_created := data.taken_at_timestamp, username := data.owner_username,
              caption := if caps.length > 0 then Sum.inr (String.intercalate "\n\n" caps)
                         else Sum.inl caps,
              n_likes := data.n_likes_count, location := data.location_name,
              is_video := data.is_video, is_paid_partnership := data.is_paid_partnership,
              tagged_users := data.tagged_users, comments := parse_comment data,
              images := none, videos := none }, ?_⟩
    unfold parse_post mediaDispatch
    rw [hc, if_neg (by tauto), if_neg (by tauto), if_neg (by tauto)]

/-- Concrete Video-tagged payload. -/
def vidPayload : RawPost := { emptyCaptionPayload with typename := some "GraphVideo" }

/-- Concrete Image-tagged payload. -/
def imgPayload : RawPost := { emptyCaptionPayload with typename := some "GraphImage" }

/-- Concrete Sidecar-tagged payload with two carousel children. -/
def sidecarPayload : RawPost :=
  { emptyCaptionPayload with
      typename := some "GraphSidecar"
      sidecar_children := some [default, default] }

/-- Concrete payload with an unrecognized type tag. -/
def unknownTagPayload : RawPost := { emptyCaptionPayload with typename := some "Unknown" }

/-- C8 witness: the dispatch theorem applied to concrete Video-, Image-,
Sidecar- and unknown-tagged payloads. -/
theorem c8_witness :
    (∃ r, parse_post vidPayload = Except.ok r ∧ r.images = none) ∧
    (∃ r, parse_post imgPayload = Except.ok r ∧ r.videos = none) ∧
    (∃ r, parse_post sidecarPayload = Except.ok r ∧
      r.images = some [parse_image default, parse_image default]) ∧
    (∃ r, parse_post unknownTagPayload = Except.ok r ∧ r.images = none ∧ r.videos = none) := by
  obtain ⟨rv, hv⟩ : ∃ r, parse_post vidPayload = Except.ok r := ⟨_, rfl⟩
  obtain ⟨ri, hi⟩ : ∃ r, parse_post imgPayload = Except.ok r := ⟨_, rfl⟩
  obtain ⟨rs, hs⟩ : ∃ r, parse_post sidecarPayload = Except.ok r := ⟨_, rfl⟩
  refine ⟨⟨rv, hv, ?_⟩, ⟨ri, hi, ?_⟩, ⟨rs, hs, ?_⟩, ?_⟩
  · exact ((c8_media_dispatch.1 vidPayload rv hv).1 (Or.inr rfl)).1
  · exact ((c8_media_dispatch.1 imgPayload ri hi).2.1 (Or.inr rfl)).1
  · obtain ⟨ch, hch, hims, hvs⟩ :=
      (c8_media_dispatch.1 sidecarPayload rs hs).2.2.1 (Or.inr rfl)
    have : ch = [default, default] := by
      have h2 : sidecarPayload.sidecar_children = some [default, default] := rfl
      rw [h2] at hch
      exact (Option.some.injEq _ _ ▸ hch).symm
    rw [hims, this]
    rfl
  · obtain ⟨r, hr⟩ := c8_media_dispatch.2 unknownTagPayload [] rfl (by decide)
    exact ⟨r, hr, (c8_media_dispatch.1 unknownTagPayload r hr).2.2.2 (by decide)⟩

/-! ## ProxiedFetcher: scrape_post under @retry (src/src/main.py, lines 15-42)

`scrape_post` is an `async def` decorated with the *synchronous* pypi
`retry` decorator.  Inside `retry.api.__retry_internal`, `try: return f()`
calls the coroutine function; for an async function that merely constructs
and returns the coroutine object — no body code runs and no `ReadTimeout`
can be raised inside the decorator's try.  The decorator therefore returns
after its first call, with no sleeps and no retry, and the body runs exactly
once, later, when `asyncio.gather` awaits the coroutine; a `ReadTimeout`
raised by `await client.post(...)` then propagates to the gather, outside
the decorator. -/

/-- Outcome of the single HTTP attempt inside `scrape_post`'s body: either
the transport raises `ReadTimeout`, or a response arrives with a status code
and, when the body decodes, the `data.xdt_shortcode_media` payload (`none`
models a body whose key path is missing, which the `KeyError` handler turns
into `return None`). -/
inductive HttpResp where
  | readTimeout
  | resp (status : Nat) (payload : Option RawPost)

/-- What one awaited `scrape_post` coroutine delivers to `asyncio.gather`:
`raised` = an exception (the `ReadTimeout`) propagated out of the await,
`retNone` = the function returned `None`, `retData` = a payload dict. -/
inductive ScrapeResult where
  | raised
  | retNone
  | retData (p : RawPost)
deriving Repr, DecidableEq

/-- What one synchronous call of the wrapped function does inside the
decorator's try: return a value, or raise `ReadTimeout`. -/
inductive SyncCall (α : Type) where
  | ret (a : α)
  | raiseTimeout

/-- A finished `__retry_internal` run: `result = none` means the exception
was re-raised after the tries were exhausted, `calls` counts the synchronous
calls of the wrapped function, `sleeps` the back-off sleeps performed. -/
structure RetryRun (α : Type) where
  result : Option α
  calls : Nat
  sleeps : List Nat

/-- The `jitter` argument of the decorator call `@retry(ReadTimeout, tries=3,
delay=2, backoff=2, logger=Actor.log)`: it is not passed, so the retry
library's default `jitter = 0` applies and the delays are deterministic. -/
def retryJitter : Nat := 0

/-- The loop of `retry.api.__retry_internal` as configured by the decorator:
only `ReadTimeout` is caught; `_tries` is decremented and on reaching zero
the exception is re-raised, otherwise the loop sleeps `_delay` and
multiplies `_delay` by the backoff 2, adding the (zero) jitter.  `f i` is
what the i-th synchronous call of the wrapped function does.  The
`tries = 0` base case (`while _tries:` failing immediately) is unreachable
from the decorator's `tries=3` entry. -/
def retryInternal {α : Type} (f : Nat → SyncCall α) :
    Nat → Nat → Nat → List Nat → RetryRun α
  | 0, i, _, sleeps => { result := none, calls := i, sleeps := sleeps }
  | tries + 1, i, delay, sleeps =>
    match f i with
    | SyncCall.ret a => { result := some a, calls := i + 1, sleeps := sleeps }
    | SyncCall.raiseTimeout =>
      if tries = 0 then { result := none, calls := i + 1, sleeps := sleeps }
      else retryInternal f tries (i + 1) (delay * 2 + retryJitter) (sleeps ++ [delay])

/-- Calling the async `scrape_post` function: constructing a coroutine never
raises, whatever the network will later do.  (`Unit` stands for the inert
coroutine object; all its behaviour happens at await time.) -/
def callAsyncScrapePost : Nat → SyncCall Unit := fun _ => SyncCall.ret ()

/-- The decorated call as the program executes it: the decorator's loop with
`tries=3`, `delay=2` around the coroutine-returning call. -/
def decoratedScrapePost : RetryRun Unit := retryInternal callAsyncScrapePost 3 0 2 []

/-- The response classification in the body of `scrape_post` (lines 33-42):
non-200 status returns `None`; a 200 body missing the expected key path
returns `None`; otherwise the payload is returned. -/
def classifyResp (status : Nat) (payload : Option RawPost) : ScrapeResult :=
  if status ≠ 200 then ScrapeResult.retNone
  else match payload with
    | none => ScrapeResult.retNone
    | some p => ScrapeResult.retData p

/-- The body of `scrape_post` (lines 16-42), run once when the coroutine is
awaited: a timeout raises — now outside the decorator's try, propagating to
`asyncio.gather` — and any response is classified. -/
def scrape_post_body (r : HttpResp) : ScrapeResult :=
  match r with
  | HttpResp.readTimeout => ScrapeResult.raised
  | HttpResp.resp status payload => classifyResp status payload

/-- One gathered `scrape_post` call with its observable behaviour: how many
HTTP attempts were made and which back-off sleeps happened. -/
structure ScrapeRun where
  result : ScrapeResult
  httpAttempts : Nat
  sleeps : List Nat
deriving Repr, DecidableEq

/-- `await scrape_post(client, shortcode)` as the batch runner's gather sees
it: the decorator finishes with `decoratedScrapePost`'s sleeps (provably
none), and awaiting the returned coroutine runs the body — which contains a
single `client.post` call — exactly once, with outcome `f 0`. -/
def scrape_post (f : Nat → HttpResp) : ScrapeRun :=
  { result := scrape_post_body (f 0)
    httpAttempts := 1
    sleeps := decoratedScrapePost.sleeps }

/-- The response classifier never produces the raised outcome. -/
theorem classifyResp_ne_raised (status : Nat) (payload : Option RawPost) :
    classifyResp status payload ≠ ScrapeResult.raised := by
  unfold classifyResp
  split
  · simp
  · cases payload <;> simp

/-- The decorator's loop, applied to a call that returns (as constructing a
coroutine always does), finishes on its first iteration — one call, no
sleeps, no retry — whatever tries and delay remain. -/
theorem retryInternal_ret {α : Type} (a : α) (tries i delay : Nat) (sleeps : List Nat) :
    retryInternal (fun _ => SyncCall.ret a) (tries + 1) i delay sleeps
      = { result := some a, calls := i + 1, sleeps := sleeps } := rfl

/-- C4 counterexample: under a persistent network timeout the program makes
exactly one HTTP attempt, never sleeps, and the `ReadTimeout` propagates to
`asyncio.gather`: the synchronous @retry decorator wraps an async function,
so its try/except sees only the coroutine construction and can never catch
the timeout — the claimed internal retry (up to 3 attempts with increasing
delay) never happens. -/
theorem c4_counterexample :
    scrape_post (fun _ => HttpResp.readTimeout)
      = { result := ScrapeResult.raised, httpAttempts := 1, sleeps := [] } ∧
    decoratedScrapePost = { result := some (), calls := 1, sleeps := [] } := by
  exact ⟨rfl, rfl⟩

/-- C4 (amended): `scrape_post` performs no internal retry at all: the
synchronous retry decorator, applied to the async function, returns the
coroutine after one call with no back-off sleeps, the awaited body makes
exactly one HTTP attempt, a timeout propagates as a raised exception to the
gathering caller, and a non-timeout failure (non-200 status, missing
expected key path) returns `None` for that single attempt — so neither
timeouts nor other failures are ever retried internally. -/
theorem c4_amended (f : Nat → HttpResp) :
    (scrape_post f).httpAttempts = 1 ∧
    (scrape_post f).sleeps = [] ∧
    decoratedScrapePost.calls = 1 ∧
    ((scrape_post f).result = ScrapeResult.raised ↔ f 0 = HttpResp.readTimeout) ∧
    (∀ status payload, f 0 = HttpResp.resp status payload →
      (scrape_post f).result = classifyResp status payload) := by
  refine ⟨rfl, rfl, rfl, ?_, ?_⟩
  · constructor
    · intro hr
      cases h0 : f 0 with
      | readTimeout => rfl
      | resp s p =>
        have hres : (scrape_post f).result = classifyResp s p := by
          show scrape_post_body (f 0) = classifyResp s p
          rw [h0]
          rfl
        rw [hres] at hr
        exact absurd hr (classifyResp_ne_raised s p)
    · intro h0
      show scrape_post_body (f 0) = ScrapeResult.raised
      rw [h0]
      rfl
  · intro status payload h0
    show scrape_post_body (f 0) = classifyResp status payload
    rw [h0]
    rfl

/-- C4 witness: a 404 response on the single attempt returns `None` with one
attempt and no sleeps; a timeout on the single attempt propagates. -/
theorem c4_witness :
    (scrape_post fun _ => HttpResp.resp 404 none).result = ScrapeResult.retNone ∧
    (scrape_post fun _ => HttpResp.resp 404 none).httpAttempts = 1 ∧
    (scrape_post fun _ => HttpResp.resp 404 none).sleeps = [] ∧
    (scrape_post fun _ => HttpResp.readTimeout).result = ScrapeResult.raised := by
  have h := c4_amended (fun _ => HttpResp.resp 404 none)
  have ht := c4_amended (fun _ => HttpResp.readTimeout)
  refine ⟨?_, h.1, h.2.1, ?_⟩
  · exact (h.2.2.2.2 404 none rfl).trans (by rfl)
  · exact ht.2.2.2.1.mpr rfl

/-! ## BatchRunner: fetch_post_batch_with_proxy (src/src/main.py, lines 45-71) -/

/-- What one gathered `scrape_post` task delivers to the batch loop
(`asyncio.gather(..., return_exceptions=True)`): a captured exception, a falsy
return (`None`, from a non-200 status or a missing key path), or a payload
dict. -/
inductive ScrapeOutcome where
  | exception
  | nullResp
  | payload (p : RawPost)
deriving Repr, DecidableEq

/-- Whether an outcome passes the `isinstance(response, Exception) or not
response` filter, i.e. is a payload handed to `parse_post`. -/
def isFetched (o : ScrapeOutcome) : Bool :=
  match o with
  | ScrapeOutcome.payload _ => true
  | _ => false

/-- The `for shortcode, response in zip(batch, responses)` loop of
`fetch_post_batch_with_proxy` (lines 60-65).  A `parse_post` exception
escapes the loop and is caught by the batch-level handler (line 67), which
appends the *entire* batch to the failed list while keeping the records
already appended to `results`. -/
def processResponses (batch : List String) (scrape : String → ScrapeOutcome) :
    List String → List PostRecord → List String → List PostRecord × List String
  | [], results, failed => (results, failed)
  | sc :: rest, results, failed =>
    match scrape sc with
    | ScrapeOutcome.exception => processResponses batch scrape rest results (failed ++ [sc])
    | ScrapeOutcome.nullResp => processResponses batch scrape rest results (failed ++ [sc])
    | ScrapeOutcome.payload p =>
      match parse_post p with
      | Except.error _ => (results, failed ++ batch)
      | Except.ok r => processResponses batch scrape rest (results ++ [r]) failed

/-- `fetch_post_batch_with_proxy` (lines 45-71).  `newUrlOk` is whether
`proxy_configuration.new_url()` (line 47, *outside* the try block) succeeds:
if not, the exception propagates out of the function.  `clientOk` is whether
entering `AsyncClient(proxies=proxies)` (line 56, inside the try) succeeds:
if not, the handler returns `([], batch)`.  `scrape` gives each shortcode's
gathered outcome. -/
def fetch_post_batch_with_proxy (newUrlOk clientOk : Bool)
    (scrape : String → ScrapeOutcome) (batch : List String) :
    Except PyErr (List PostRecord × List String) :=
  if !newUrlOk then Except.error PyErr.exn
  else if !clientOk then Except.ok ([], batch)
  else Except.ok (processResponses batch scrape batch [] [])

/-- The failed list only grows along `processResponses`. -/
theorem processResponses_failed_grows (batch : List String) (scrape : String → ScrapeOutcome) :
    ∀ pending results failed,
      failed <+: (processResponses batch scrape pending results failed).2 := by
  intro pending
  induction pending with
  | nil => intro results failed; exact List.prefix_rfl
  | cons sc rest ih =>
    intro results failed
    unfold processResponses
    split
    · exact (List.prefix_append failed [sc]).trans (ih _ _)
    · exact (List.prefix_append failed [sc]).trans (ih _ _)
    · split
      · exact List.prefix_append failed batch
      · exact ih _ _

/-- Every pending target ends in the failed list or was genuinely fetched and
parsed; in the whole-batch escape case membership in `batch` suffices. -/
theorem processResponses_covers (batch : List String) (scrape : String → ScrapeOutcome) :
    ∀ pending results failed, (∀ t ∈ pending, t ∈ batch) →
      ∀ t ∈ pending,
        t ∈ (processResponses batch scrape pending results failed).2 ∨
        ∃ p r, scrape t = ScrapeOutcome.payload p ∧ parse_post p = Except.ok r := by
  intro pending
  induction pending with
  | nil => intro _ _ _ t ht; cases ht
  | cons sc rest ih =>
    intro results failed hsub t ht
    unfold processResponses
    rcases List.mem_cons.mp ht with rfl | hrest
    · split
      · left
        exact (processResponses_failed_grows batch scrape rest results
          (failed ++ [t])).subset (by simp)
      · left
        exact (processResponses_failed_grows batch scrape rest results
          (failed ++ [t])).subset (by simp)
      · rename_i p hs
        split
        · left
          exact List.mem_append.mpr (Or.inr (hsub t ht))
        · rename_i r hp
          right
          exact ⟨p, r, hs, hp⟩
    · split
      · exact ih _ _ (fun u hu => hsub u (List.mem_cons_of_mem sc hu)) t hrest
      · exact ih _ _ (fun u hu => hsub u (List.mem_cons_of_mem sc hu)) t hrest
      · split
        · left
          exact List.mem_append.mpr (Or.inr (hsub t ht))
        · exact ih _ _ (fun u hu => hsub u (List.mem_cons_of_mem sc hu)) t hrest

/-- C3 counterexample: if `proxy_configuration.new_url()` raises, the batch
runner does not return its targets as failed — the call sits outside the
`try` block, so the exception propagates; at the scheduler level the
ungathered exception aborts the whole run instead of re-queuing the batch. -/
theorem c3_counterexample :
    fetch_post_batch_with_proxy false true (fun _ => ScrapeOutcome.nullResp) ["a"]
      = Except.error PyErr.exn ∧
    Except.error PyErr.exn ≠
      (Except.ok ([], ["a"]) : Except PyErr (List PostRecord × List String)) := by
  exact ⟨rfl, by simp⟩

/-- C3 (amended): an error arising *inside* the proxied-client block is
caught and the whole batch is treated as failed — a client-setup failure
returns `([], batch)`, and every target of a batch whose loop is interrupted
either appears in the failed list or was genuinely fetched and parsed — but a
failure of `new_url()` itself (proxy acquisition, line 47, outside the try)
propagates out of `fetch_post_batch_with_proxy` and aborts the run. -/
theorem c3_amended :
    (∀ scrape batch, fetch_post_batch_with_proxy true false scrape batch
        = Except.ok ([], batch)) ∧
    (∀ scrape batch rs fl,
        fetch_post_batch_with_proxy true true scrape batch = Except.ok (rs, fl) →
        ∀ t ∈ batch, t ∈ fl ∨
          ∃ p r, scrape t = ScrapeOutcome.payload p ∧ parse_post p = Except.ok r) ∧
    (∀ scrape batch, fetch_post_batch_with_proxy false true scrape batch
        = Except.error PyErr.exn) := by
  refine ⟨fun _ _ => rfl, ?_, fun _ _ => rfl⟩
  intro scrape batch rs fl h t ht
  have hpr : processResponses batch scrape batch [] [] = (rs, fl) := by
    unfold fetch_post_batch_with_proxy at h
    simp only [Bool.not_true, Bool.false_eq_true, if_false, ite_false] at h
    exact Except.ok.inj h
  have := processResponses_covers batch scrape batch [] [] (fun u hu => hu) t ht
  rw [hpr] at this
  exact this

/-- C3 witness: the amended theorem at concrete batches — client failure
fails the whole batch, and a batch interrupted by a parse error re-queues
every target. -/
theorem c3_witness :
    fetch_post_batch_with_proxy true false (fun _ => ScrapeOutcome.nullResp) ["a", "b"]
      = Except.ok ([], ["a", "b"]) ∧
    ("a" ∈ (["a", "b"] : List String) ∨
      ∃ p r, (fun _ => ScrapeOutcome.exception) "a" = ScrapeOutcome.payload p ∧
        parse_post p = Except.ok r) := by
  constructor
  · exact c3_amended.1 (fun _ => ScrapeOutcome.nullResp) ["a", "b"]
  · have h := c3_amended.2.1 (fun _ => ScrapeOutcome.exception) ["a", "b"] [] ["a", "b"]
      rfl "a" (by simp)
    rcases h with h | h
    · exact Or.inl (by simp)
    · exact Or.inr h

/-! ## BatchScheduler: fetch_posts_with_proxy (src/src/main.py, lines 180-224)

The network/proxy nondeterminism is resolved by an `Oracle` giving, per retry
round, batch index and shortcode, the outcome of each proxied call.  The
`concurrency_limit` semaphore only bounds in-flight batches and has no
observable effect in this sequentialized model (any limit ≥ 1 yields the same
collected outcome); `asyncio.gather` returns the per-batch failed lists in
task order, and success records are modelled as collected in batch order. -/

/-- The outcome of the proxied world for one scheduler run. -/
structure Oracle where
  newUrlOk : Nat → Nat → Bool
  clientOk : Nat → Nat → Bool
  scrape : Nat → Nat → String → ScrapeOutcome

/-- One element of the scheduler's returned list: a parsed post dict or an
error dict `{"shortcode": ..., "error": ..., "message": ...}`. -/
inductive OutRec where
  | post (r : PostRecord)
  | err (shortcode : String) (error : String) (message : String)
deriving Repr, DecidableEq

/-- Single pass implementing Python's batch slicing
`[l[i:i+b] for i in range(0, len(l), b)]`: `cur` is the reversed slice being
built, `k` its remaining capacity. -/
def chunksAux (b : Nat) : List α → List α → Nat → List (List α)
  | [], cur, _ => if cur.isEmpty then [] else [cur.reverse]
  | x :: xs, cur, 0 => cur.reverse :: chunksAux b xs [x] (b - 1)
  | x :: xs, cur, k + 1 => chunksAux b xs (x :: cur) k

/-- Python's `[l[i:i+b] for i in range(0, len(l), b)]` for `b ≥ 1` (with
`b = 0` Python's `range` raises `ValueError`; the claims all assume
`b ≥ 1`). -/
def chunks (b : Nat) (l : List α) : List (List α) :=
  match l with
  | [] => []
  | x :: xs => chunksAux b xs [x] (b - 1)

/-- The error message built at line 223; its f-string interpolates the leaked
loop variable `shortcode`, not the record's own `failed_shortcode`. -/
def mkErrMessage (sc : String) : String := "Failed to fetch " ++ sc ++ " after retries."

/-- The trailing `for failed_shortcode in failed_shortcodes` loop
(lines 222-223).  The message's f-string reads the variable `shortcode`,
last bound by the flattening loop (line 206); if the error loop runs while
that variable was never bound, Python raises `NameError`. -/
def emitErrors : Option String → List String → Except PyErr (List OutRec)
  | _, [] => Except.ok []
  | none, _ :: _ => Except.error PyErr.nameError
  | some lastSc, l =>
    Except.ok (l.map fun sc => OutRec.err sc "NOT_FETCHED" (mkErrMessage lastSc))

/-- One round: run every batch (the `asyncio.gather` of `process_batch`
tasks, line 200-201, which has no `return_exceptions=True`, so any batch
exception propagates and aborts the run).  Returns the collected success
records and the per-batch failed lists in task order. -/
def runRound (orc : Oracle) (round : Nat) : List (List String) → Nat →
    Except PyErr (List PostRecord × List (List String))
  | [], _ => Except.ok ([], [])
  | b :: rest, i =>
    match fetch_post_batch_with_proxy (orc.newUrlOk round i) (orc.clientOk round i)
        (orc.scrape round i) b with
    | Except.error e => Except.error e
    | Except.ok (rs, fl) =>
      match runRound orc round rest (i + 1) with
      | Except.error e => Except.error e
      | Except.ok (rs2, fls) => Except.ok (rs ++ rs2, fl :: fls)

/-- The local state of `fetch_posts_with_proxy`'s while loop.  `lastFailed`
and `lastSc` model the Python variables `failed_shortcodes` and `shortcode`;
`none` means "never assigned". -/
structure SchedState where
  results : List PostRecord
  n_failed : Nat
  no_progress : Nat
  batches : List (List String)
  lastFailed : Option (List String)
  lastSc : Option String
  round : Nat

/-- The value of the leaked variable `shortcode` after a flattening loop
(lines 204-207): the last shortcode iterated if the loop ran, otherwise the
previous value. -/
def nextLastSc (old : Option String) (failed : List String) : Option String :=
  match failed.getLast? with
  | none => old
  | some sc => some sc

/-- The loop state after a completed non-final round (lines 209-220):
accumulate the round's records, take the flattened failures as the new
pending list re-split into batches, and set the new stagnation counter. -/
def advance (batchsize : Nat) (st : SchedState) (recs : List PostRecord)
    (fls : List (List String)) (np : Nat) : SchedState :=
  { results := st.results ++ recs
    n_failed := fls.flatten.length
    no_progress := np
    batches := chunks batchsize fls.flatten
    lastFailed := some fls.flatten
    lastSc := nextLastSc st.lastSc fls.flatten
    round := st.round + 1 }

/-- The `while batches:` loop of `fetch_posts_with_proxy` (lines 198-224)
followed by the error-record emission; one unit of fuel per loop iteration
(`none` = the loop is still running after `fuel` iterations — with
`max_retries = 0` it indeed never stops under persistent failure). -/
def schedLoop (orc : Oracle) (batchsize max_retries : Nat) :
    Nat → SchedState → Option (Except PyErr (List OutRec))
  | 0, _ => none
  | fuel + 1, st =>
    match st.batches with
    | [] =>
      match st.lastFailed with
      | none => some (Except.error PyErr.nameError)
      | some fl =>
        match emitErrors st.lastSc fl with
        | Except.error e => some (Except.error e)
        | Except.ok errs => some (Except.ok (st.results.map OutRec.post ++ errs))
    | _ :: _ =>
      match runRound orc st.round st.batches 0 with
      | Except.error e => some (Except.error e)
      | Except.ok (recs, fls) =>
        if fls.flatten.length ≥ st.n_failed then
          if st.no_progress + 1 = max_retries then
            match emitErrors (nextLastSc st.lastSc fls.flatten) fls.flatten with
            | Except.error e => some (Except.error e)
            | Except.ok errs =>
              some (Except.ok ((st.results ++ recs).map OutRec.post ++ errs))
          else
            schedLoop orc batchsize max_retries fuel
              (advance batchsize st recs fls (st.no_progress + 1))
        else
          schedLoop orc batchsize max_retries fuel (advance batchsize st recs fls 0)

/-- `fetch_posts_with_proxy` (lines 180-224): initial state of the loop. -/
def fetch_posts_with_proxy (orc : Oracle) (shortcodes : List String)
    (batchsize max_retries fuel : Nat) : Option (Except PyErr (List OutRec)) :=
  schedLoop orc batchsize max_retries fuel
    { results := [], n_failed := shortcodes.length, no_progress := 0,
      batches := chunks batchsize shortcodes, lastFailed := none, lastSc := none, round := 0 }

/-- Whether an output record accounts for target `t`: a parsed record whose
shortcode field is `t`, or an error record for `t`. -/
def accountsFor (t : String) : OutRec → Bool
  | OutRec.post r => r.shortcode == some t
  | OutRec.err sc _ _ => sc == t

/-- How many output records account for target `t`. -/
def countFor (t : String) (out : List OutRec) : Nat := out.countP (accountsFor t)

/-- How many success records carry shortcode `t`. -/
def recCount (t : String) (rs : List PostRecord) : Nat :=
  rs.countP (fun r => r.shortcode == some t)

/-- The platform answers each requested shortcode with a payload carrying
that shortcode (how attribution of a success record to its target works). -/
def shortcodeMatches (orc : Oracle) : Prop :=
  ∀ round i t p, orc.scrape round i t = ScrapeOutcome.payload p → p.media.shortcode = some t

/-- Every fetched payload parses without an extraction error. -/
def parsesCleanly (orc : Oracle) : Prop :=
  ∀ round i t p, orc.scrape round i t = ScrapeOutcome.payload p →
    ∃ r, parse_post p = Except.ok r

/-- Occurrence count of a shortcode in a list. -/
def strCount (t : String) (l : List String) : Nat := l.countP (fun s => s == t)

/-- Per-call versions of the oracle hypotheses. -/
def scrMatch (scrape : String → ScrapeOutcome) : Prop :=
  ∀ t p, scrape t = ScrapeOutcome.payload p → p.media.shortcode = some t

def scrClean (scrape : String → ScrapeOutcome) : Prop :=
  ∀ t p, scrape t = ScrapeOutcome.payload p → ∃ r, parse_post p = Except.ok r

/-! ### Counting and chunking lemmas -/

theorem countFor_map_post (t : String) (rs : List PostRecord) :
    countFor t (rs.map OutRec.post) = recCount t rs := by
  unfold countFor recCount
  rw [List.countP_map]
  rfl

theorem countFor_map_err (t e m : String) (fl : List String) :
    countFor t (fl.map fun sc => OutRec.err sc e m) = strCount t fl := by
  unfold countFor strCount
  rw [List.countP_map]
  rfl

theorem countFor_append (t : String) (l1 l2 : List OutRec) :
    countFor t (l1 ++ l2) = countFor t l1 + countFor t l2 :=
  List.countP_append _ _ _

theorem strCount_append (t : String) (l1 l2 : List String) :
    strCount t (l1 ++ l2) = strCount t l1 + strCount t l2 :=
  List.countP_append _ _ _

theorem recCount_append (t : String) (l1 l2 : List PostRecord) :
    recCount t (l1 ++ l2) = recCount t l1 + recCount t l2 :=
  List.countP_append _ _ _

theorem strCount_cons (t x : String) (l : List String) :
    strCount t (x :: l) = strCount t l + (if x == t then 1 else 0) :=
  List.countP_cons _ _ _

theorem recCount_cons (t : String) (r : PostRecord) (l : List PostRecord) :
    recCount t (r :: l) = recCount t l + (if r.shortcode == some t then 1 else 0) :=
  List.countP_cons _ _ _

theorem strCount_nil (t : String) : strCount t [] = 0 := rfl

theorem recCount_nil (t : String) : recCount t [] = 0 := rfl

theorem flatten_chunksAux (b : Nat) :
    ∀ (l cur : List α) (k : Nat), (chunksAux b l cur k).flatten = cur.reverse ++ l := by
  intro l
  induction l with
  | nil =>
    intro cur k
    unfold chunksAux
    by_cases h : cur.isEmpty
    · rw [if_pos h]
      simp [List.isEmpty_iff.mp h]
    · rw [if_neg h]
      simp
  | cons x xs ih =>
    intro cur k
    cases k with
    | zero =>
      unfold chunksAux
      simp [ih]
    | succ k =>
      unfold chunksAux
      rw [ih]
      simp

/-- Re-splitting into batches loses and duplicates nothing. -/
theorem flatten_chunks (b : Nat) (l : List α) : (chunks b l).flatten = l := by
  cases l with
  | nil => rfl
  | cons x xs =>
    unfold chunks
    rw [flatten_chunksAux]
    rfl

theorem chunksAux_ne_nil (b : Nat) :
    ∀ (l cur : List α) (k : Nat), cur ≠ [] → chunksAux b l cur k ≠ [] := by
  intro l
  induction l with
  | nil =>
    intro cur k h
    unfold chunksAux
    rw [if_neg (by simpa [List.isEmpty_iff] using h)]
    simp
  | cons x xs ih =>
    intro cur k h
    cases k with
    | zero =>
      unfold chunksAux
      simp
    | succ k =>
      unfold chunksAux
      exact ih (x :: cur) k (by simp)

theorem chunks_ne_nil (b : Nat) (l : List α) (h : l ≠ []) : chunks b l ≠ [] := by
  cases l with
  | nil => exact absurd rfl h
  | cons x xs =>
    unfold chunks
    exact chunksAux_ne_nil b xs [x] (b - 1) (by simp)

/-- A successfully parsed record carries the payload's shortcode. -/
theorem parse_post_shortcode (p : RawPost) (r : PostRecord)
    (h : parse_post p = Except.ok r) : r.shortcode = p.media.shortcode := by
  unfold parse_post at h
  split at h
  · cases h
  · split at h
    · cases h
    · cases h
      rfl

theorem nextLastSc_cons (old : Option String) (x : String) (xs : List String) :
    nextLastSc old (x :: xs) = some ((x :: xs).getLastD "") := by
  unfold nextLastSc
  cases hl : (x :: xs).getLast? with
  | none => simp at hl
  | some y =>
    have hy : (x :: xs).getLastD "" = y := by
      rw [List.getLastD_eq_getLast?, hl]
      rfl
    rw [hy]

/-! ### Per-batch accounting -/

/-- Exact accounting through the zip loop when every payload parses: the
records and failures produced partition the pending targets. -/
theorem processResponses_count_eq (batch : List String) (scrape : String → ScrapeOutcome)
    (hm : scrMatch scrape) (hc : scrClean scrape) :
    ∀ pending results failed t,
      recCount t (processResponses batch scrape pending results failed).1 +
        strCount t (processResponses batch scrape pending results failed).2
      = recCount t results + strCount t failed + strCount t pending := by
  intro pending
  induction pending with
  | nil =>
    intro results failed t
    unfold processResponses
    dsimp only
    rw [strCount_nil]
    omega
  | cons sc rest ih =>
    intro results failed t
    unfold processResponses
    cases hs : scrape sc with
    | exception =>
      dsimp only
      rw [ih, strCount_append, strCount_cons, strCount_cons, strCount_nil]
      omega
    | nullResp =>
      dsimp only
      rw [ih, strCount_append, strCount_cons, strCount_cons, strCount_nil]
      omega
    | payload p =>
      dsimp only
      obtain ⟨r, hr⟩ := hc sc p hs
      rw [hr]
      dsimp only
      rw [ih]
      have hsc : r.shortcode = some sc := by
        rw [parse_post_shortcode p r hr]
        exact hm sc p hs
      rw [recCount_append, recCount_cons, recCount_nil, hsc, strCount_cons]
      have hbeq : ((some sc == some t) = (sc == t)) := rfl
      rw [hbeq]
      omega

/-- One-sided accounting without the cleanliness hypothesis: no pending
target is lost (the whole-batch escape path may duplicate, hence only ≥). -/
theorem processResponses_count_ge (batch : List String) (scrape : String → ScrapeOutcome)
    (hm : scrMatch scrape) :
    ∀ pending results failed,
      (∀ t, strCount t pending ≤ strCount t batch) →
      ∀ t, recCount t results + strCount t failed + strCount t pending ≤
        recCount t (processResponses batch scrape pending results failed).1 +
          strCount t (processResponses batch scrape pending results failed).2 := by
  intro pending
  induction pending with
  | nil =>
    intro results failed hsub t
    unfold processResponses
    dsimp only
    rw [strCount_nil]
    omega
  | cons sc rest ih =>
    intro results failed hsub t
    have hsub2 : ∀ u, strCount u rest ≤ strCount u batch := by
      intro u
      refine le_trans ?_ (hsub u)
      rw [strCount_cons]
      omega
    unfold processResponses
    cases hs : scrape sc with
    | exception =>
      dsimp only
      refine le_trans ?_ (ih results (failed ++ [sc]) hsub2 t)
      rw [strCount_append, strCount_cons, strCount_cons, strCount_nil]
      omega
    | nullResp =>
      dsimp only
      refine le_trans ?_ (ih results (failed ++ [sc]) hsub2 t)
      rw [strCount_append, strCount_cons, strCount_cons, strCount_nil]
      omega
    | payload p =>
      dsimp only
      cases hp : parse_post p with
      | error e =>
        dsimp only
        have hsubt := hsub t
        rw [strCount_append]
        rw [strCount_cons] at hsubt ⊢
        omega
      | ok r =>
        dsimp only
        refine le_trans ?_ (ih (results ++ [r]) failed hsub2 t)
        have hsc : r.shortcode = some sc := by
          rw [parse_post_shortcode p r hp]
          exact hm sc p hs
        rw [recCount_append, recCount_cons, recCount_nil, hsc, strCount_cons]
        have hbeq : ((some sc == some t) = (sc == t)) := rfl
        rw [hbeq]
        omega

/-- Batch-level exact accounting: with a clean, shortcode-matching scrape, a
successful batch call partitions its targets between records and failures. -/
theorem fetch_batch_count_eq (u c : Bool) (scrape : String → ScrapeOutcome)
    (batch : List String) (rs : List PostRecord) (fl : List String)
    (hm : scrMatch scrape) (hc : scrClean scrape)
    (h : fetch_post_batch_with_proxy u c scrape batch = Except.ok (rs, fl)) :
    ∀ t, recCount t rs + strCount t fl = strCount t batch := by
  intro t
  cases u with
  | false => exact absurd h (by simp [fetch_post_batch_with_proxy])
  | true =>
    cases c with
    | false =>
      have h2 : (([], batch) : List PostRecord × List String) = (rs, fl) := Except.ok.inj h
      cases h2
      rw [recCount_nil]
      omega
    | true =>
      have h2 : processResponses batch scrape batch [] [] = (rs, fl) := Except.ok.inj h
      have h3 := processResponses_count_eq batch scrape hm hc batch [] [] t
      rw [h2] at h3
      dsimp only at h3
      rw [recCount_nil, strCount_nil] at h3
      omega

/-- Batch-level one-sided accounting: no target of a successful batch call is
lost, whatever the parse outcomes. -/
theorem fetch_batch_count_ge (u c : Bool) (scrape : String → ScrapeOutcome)
    (batch : List String) (rs : List PostRecord) (fl : List String)
    (hm : scrMatch scrape)
    (h : fetch_post_batch_with_proxy u c scrape batch = Except.ok (rs, fl)) :
    ∀ t, strCount t batch ≤ recCount t rs + strCount t fl := by
  intro t
  cases u with
  | false => exact absurd h (by simp [fetch_post_batch_with_proxy])
  | true =>
    cases c with
    | false =>
      have h2 : (([], batch) : List PostRecord × List String) = (rs, fl) := Except.ok.inj h
      cases h2
      rw [recCount_nil]
      omega
    | true =>
      have h2 : processResponses batch scrape batch [] [] = (rs, fl) := Except.ok.inj h
      have h3 := processResponses_count_ge batch scrape hm batch [] []
        (fun u => le_refl _) t
      rw [h2] at h3
      dsimp only at h3
      rw [recCount_nil, strCount_nil] at h3
      omega

/-- Round-level exact accounting under clean parses. -/
theorem runRound_count_eq (orc : Oracle) (round : Nat)
    (hm : shortcodeMatches orc) (hc : parsesCleanly orc) :
    ∀ batches i recs fls, runRound orc round batches i = Except.ok (recs, fls) →
      ∀ t, recCount t recs + strCount t fls.flatten = strCount t batches.flatten := by
  intro batches
  induction batches with
  | nil =>
    intro i recs fls h t
    have h2 : (([], []) : List PostRecord × List (List String)) = (recs, fls) :=
      Except.ok.inj h
    cases h2
    rw [recCount_nil]
    rfl
  | cons bb rest ih =>
    intro i recs fls h t
    unfold runRound at h
    split at h
    · cases h
    · rename_i pair rs fl hb
      split at h
      · cases h
      · rename_i pair2 rs2 fls2 hrun
        cases h
        rw [recCount_append, List.flatten_cons, List.flatten_cons, strCount_append,
          strCount_append]
        have h1 := fetch_batch_count_eq _ _ _ _ _ _
          (fun a p hap => hm round i a p hap) (fun a p hap => hc round i a p hap) hb t
        have h2 := ih (i + 1) rs2 fls2 hrun t
        omega

/-- Round-level one-sided accounting: a successful round loses no target. -/
theorem runRound_count_ge (orc : Oracle) (round : Nat) (hm : shortcodeMatches orc) :
    ∀ batches i recs fls, runRound orc round batches i = Except.ok (recs, fls) →
      ∀ t, strCount t batches.flatten ≤ recCount t recs + strCount t fls.flatten := by
  intro batches
  induction batches with
  | nil =>
    intro i recs fls h t
    have h2 : (([], []) : List PostRecord × List (List String)) = (recs, fls) :=
      Except.ok.inj h
    cases h2
    rw [recCount_nil]
    simp [strCount_nil]
  | cons bb rest ih =>
    intro i recs fls h t
    unfold runRound at h
    split at h
    · cases h
    · rename_i pair rs fl hb
      split at h
      · cases h
      · rename_i pair2 rs2 fls2 hrun
        cases h
        rw [recCount_append, List.flatten_cons, List.flatten_cons, strCount_append,
          strCount_append]
        have h1 := fetch_batch_count_ge _ _ _ _ _ _
          (fun a p hap => hm round i a p hap) hb t
        have h2 := ih (i + 1) rs2 fls2 hrun t
        omega

/-! ### All-fail behaviour -/

/-- When every gathered outcome is a failure, the zip loop fails every
pending target in order. -/
theorem processResponses_allfail (batch : List String) (scrape : String → ScrapeOutcome)
    (hfail : ∀ t, scrape t = ScrapeOutcome.exception ∨ scrape t = ScrapeOutcome.nullResp) :
    ∀ pending results failed,
      processResponses batch scrape pending results failed = (results, failed ++ pending) := by
  intro pending
  induction pending with
  | nil =>
    intro results failed
    unfold processResponses
    rw [List.append_nil]
  | cons sc rest ih =>
    intro results failed
    unfold processResponses
    rcases hfail sc with hf | hf
    · rw [hf]
      dsimp only
      rw [ih]
      simp
    · rw [hf]
      dsimp only
      rw [ih]
      simp

/-- All-fail batch call: the whole batch comes back failed, in order. -/
theorem fetch_batch_allfail (c : Bool) (scrape : String → ScrapeOutcome)
    (batch : List String)
    (hfail : ∀ t, scrape t = ScrapeOutcome.exception ∨ scrape t = ScrapeOutcome.nullResp) :
    fetch_post_batch_with_proxy true c scrape batch = Except.ok ([], batch) := by
  cases c with
  | false => rfl
  | true =>
    show Except.ok (processResponses batch scrape batch [] []) = _
    rw [processResponses_allfail batch scrape hfail batch [] []]
    rw [List.nil_append]

/-- All-fail round: every batch comes back as its own failed list. -/
theorem runRound_allfail (orc : Oracle) (round : Nat)
    (hnew : ∀ i, orc.newUrlOk round i = true)
    (hfail : ∀ i t, orc.scrape round i t = ScrapeOutcome.exception ∨
      orc.scrape round i t = ScrapeOutcome.nullResp) :
    ∀ batches i, runRound orc round batches i = Except.ok ([], batches) := by
  intro batches
  induction batches with
  | nil => intro i; rfl
  | cons bb rest ih =>
    intro i
    unfold runRound
    rw [hnew i, fetch_batch_allfail (orc.clientOk round i) _ bb (fun t => hfail i t)]
    dsimp only
    rw [ih (i + 1)]
    rfl

/-! ### Scheduler loop invariants -/

theorem countFor_nil (t : String) : countFor t [] = 0 := rfl

theorem getLast?_cons_getLastD (x : String) (xs : List String) :
    (x :: xs).getLast? = some ((x :: xs).getLastD "") := by
  cases hl : (x :: xs).getLast? with
  | none => simp at hl
  | some y =>
    rw [List.getLastD_eq_getLast?, hl]
    rfl

theorem emitErrors_nil (o : Option String) : emitErrors o [] = Except.ok [] := by
  cases o <;> rfl

/-- Loop invariant, one-sided: a completed loop accounts for every pending
target at least once. -/
theorem schedLoop_count_ge (orc : Oracle) (b mr : Nat) (hm : shortcodeMatches orc) :
    ∀ fuel st out, schedLoop orc b mr fuel st = some (Except.ok out) →
      (∀ fl, st.lastFailed = some fl → st.batches.flatten = fl) →
      ∀ t, recCount t st.results + strCount t st.batches.flatten ≤ countFor t out := by
  intro fuel
  induction fuel with
  | zero => intro st out h _ t; cases h
  | succ fuel ih =>
    intro st out h hlink t
    unfold schedLoop at h
    split at h
    · rename_i hbempty
      split at h
      · simp at h
      · rename_i fl hfl
        split at h
        · simp at h
        · rename_i errs hemit
          cases h
          have hfleq : st.batches.flatten = fl := hlink fl hfl
          rw [hbempty] at hfleq
          simp only [List.flatten_nil] at hfleq
          rw [← hfleq] at hemit
          have herrs : ([] : List OutRec) = errs :=
            Except.ok.inj ((emitErrors_nil _).symm.trans hemit)
          rw [hbempty]
          simp only [List.flatten_nil]
          rw [countFor_append, countFor_map_post, ← herrs, countFor_nil, strCount_nil]
    · rename_i hd tl hbcons
      split at h
      · simp at h
      · rename_i pair recs fls hrun
        have hround := runRound_count_ge orc st.round hm st.batches 0 recs fls hrun t
        split at h
        · rename_i hge
          split at h
          · rename_i hnp
            split at h
            · simp at h
            · rename_i errs hemit
              cases h
              rw [countFor_append, countFor_map_post, recCount_append]
              cases hfl : fls.flatten with
              | nil =>
                rw [hfl] at hemit
                have herrs : ([] : List OutRec) = errs :=
            Except.ok.inj ((emitErrors_nil _).symm.trans hemit)
                rw [hfl, strCount_nil] at hround
                rw [← herrs, countFor_nil]
                omega
              | cons x xs =>
                rw [hfl, nextLastSc_cons] at hemit
                have herrs := Except.ok.inj hemit
                rw [← herrs, countFor_map_err]
                rw [hfl] at hround
                omega
          · rename_i hnp
            have hlink2 : ∀ fl,
                (advance b st recs fls (st.no_progress + 1)).lastFailed = some fl →
                (advance b st recs fls (st.no_progress + 1)).batches.flatten = fl := by
              intro fl hfl
              dsimp only [advance] at hfl ⊢
              cases hfl
              exact flatten_chunks b _
            have hrec := ih (advance b st recs fls (st.no_progress + 1)) out h hlink2 t
            dsimp only [advance] at hrec
            rw [flatten_chunks, recCount_append] at hrec
            omega
        · rename_i hge
          have hlink2 : ∀ fl, (advance b st recs fls 0).lastFailed = some fl →
              (advance b st recs fls 0).batches.flatten = fl := by
            intro fl hfl
            dsimp only [advance] at hfl ⊢
            cases hfl
            exact flatten_chunks b _
          have hrec := ih (advance b st recs fls 0) out h hlink2 t
          dsimp only [advance] at hrec
          rw [flatten_chunks, recCount_append] at hrec
          omega

/-- Loop invariant, exact: with clean parses a completed loop accounts for
every pending target exactly once. -/
theorem schedLoop_count_eq (orc : Oracle) (b mr : Nat)
    (hm : shortcodeMatches orc) (hc : parsesCleanly orc) :
    ∀ fuel st out, schedLoop orc b mr fuel st = some (Except.ok out) →
      (∀ fl, st.lastFailed = some fl → st.batches.flatten = fl) →
      ∀ t, countFor t out = recCount t st.results + strCount t st.batches.flatten := by
  intro fuel
  induction fuel with
  | zero => intro st out h _ t; cases h
  | succ fuel ih =>
    intro st out h hlink t
    unfold schedLoop at h
    split at h
    · rename_i hbempty
      split at h
      · simp at h
      · rename_i fl hfl
        split at h
        · simp at h
        · rename_i errs hemit
          cases h
          have hfleq : st.batches.flatten = fl := hlink fl hfl
          rw [hbempty] at hfleq
          simp only [List.flatten_nil] at hfleq
          rw [← hfleq] at hemit
          have herrs : ([] : List OutRec) = errs :=
            Except.ok.inj ((emitErrors_nil _).symm.trans hemit)
          rw [hbempty]
          simp only [List.flatten_nil]
          rw [countFor_append, countFor_map_post, ← herrs, countFor_nil, strCount_nil]
    · rename_i hd tl hbcons
      split at h
      · simp at h
      · rename_i pair recs fls hrun
        have hround := runRound_count_eq orc st.round hm hc st.batches 0 recs fls hrun t
        split at h
        · rename_i hge
          split at h
          · rename_i hnp
            split at h
            · simp at h
            · rename_i errs hemit
              cases h
              rw [countFor_append, countFor_map_post, recCount_append]
              cases hfl : fls.flatten with
              | nil =>
                rw [hfl] at hemit
                have herrs : ([] : List OutRec) = errs :=
            Except.ok.inj ((emitErrors_nil _).symm.trans hemit)
                rw [hfl, strCount_nil] at hround
                rw [← herrs, countFor_nil]
                omega
              | cons x xs =>
                rw [hfl, nextLastSc_cons] at hemit
                have herrs := Except.ok.inj hemit
                rw [← herrs, countFor_map_err]
                rw [hfl] at hround
                omega
          · rename_i hnp
            have hlink2 : ∀ fl,
                (advance b st recs fls (st.no_progress + 1)).lastFailed = some fl →
                (advance b st recs fls (st.no_progress + 1)).batches.flatten = fl := by
              intro fl hfl
              dsimp only [advance] at hfl ⊢
              cases hfl
              exact flatten_chunks b _
            have hrec := ih (advance b st recs fls (st.no_progress + 1)) out h hlink2 t
            dsimp only [advance] at hrec
            rw [flatten_chunks, recCount_append] at hrec
            omega
        · rename_i hge
          have hlink2 : ∀ fl, (advance b st recs fls 0).lastFailed = some fl →
              (advance b st recs fls 0).batches.flatten = fl := by
            intro fl hfl
            dsimp only [advance] at hfl ⊢
            cases hfl
            exact flatten_chunks b _
          have hrec := ih (advance b st recs fls 0) out h hlink2 t
          dsimp only [advance] at hrec
          rw [flatten_chunks, recCount_append] at hrec
          omega

/-- Loop invariant for the output's shape: the result of a completed loop is
success records followed by a block of error records that all share the one
message built from the final failed list's last shortcode. -/
theorem schedLoop_shape (orc : Oracle) (b mr : Nat) :
    ∀ fuel st out, schedLoop orc b mr fuel st = some (Except.ok out) →
      (∀ fl, st.lastFailed = some fl → fl ≠ [] → st.lastSc = fl.getLast?) →
      ∃ (posts : List PostRecord) (fl : List String), out = posts.map OutRec.post ++
        fl.map (fun sc => OutRec.err sc "NOT_FETCHED" (mkErrMessage (fl.getLastD ""))) := by
  intro fuel
  induction fuel with
  | zero => intro st out h _; cases h
  | succ fuel ih =>
    intro st out h hinv
    unfold schedLoop at h
    split at h
    · rename_i hbempty
      split at h
      · simp at h
      · rename_i fl hfl
        split at h
        · simp at h
        · rename_i errs hemit
          cases h
          cases hfle : fl with
          | nil =>
            rw [hfle] at hemit
            have herrs : ([] : List OutRec) = errs :=
            Except.ok.inj ((emitErrors_nil _).symm.trans hemit)
            refine ⟨st.results, [], ?_⟩
            rw [← herrs]
            rfl
          | cons x xs =>
            have hsc := hinv fl hfl (by rw [hfle]; simp)
            rw [hfle] at hsc hemit
            rw [hsc, getLast?_cons_getLastD] at hemit
            have herrs := Except.ok.inj hemit
            exact ⟨st.results, x :: xs, by rw [← herrs]⟩
    · rename_i hd tl hbcons
      split at h
      · simp at h
      · rename_i pair recs fls hrun
        split at h
        · rename_i hge
          split at h
          · rename_i hnp
            split at h
            · simp at h
            · rename_i errs hemit
              cases h
              cases hfle : fls.flatten with
              | nil =>
                rw [hfle] at hemit
                have herrs : ([] : List OutRec) = errs :=
            Except.ok.inj ((emitErrors_nil _).symm.trans hemit)
                refine ⟨st.results ++ recs, [], ?_⟩
                rw [← herrs]
                rfl
              | cons x xs =>
                rw [hfle, nextLastSc_cons] at hemit
                have herrs := Except.ok.inj hemit
                exact ⟨st.results ++ recs, x :: xs, by rw [← herrs]⟩
          · rename_i hnp
            refine ih (advance b st recs fls (st.no_progress + 1)) out h ?_
            intro fl hfl hne
            dsimp only [advance] at hfl ⊢
            cases hfl
            cases hfc : fls.flatten with
            | nil => exact absurd hfc hne
            | cons x xs => rw [nextLastSc_cons, getLast?_cons_getLastD]
        · rename_i hge
          refine ih (advance b st recs fls 0) out h ?_
          intro fl hfl hne
          dsimp only [advance] at hfl ⊢
          cases hfl
          cases hfc : fls.flatten with
          | nil => exact absurd hfc hne
          | cons x xs => rw [nextLastSc_cons, getLast?_cons_getLastD]

/-- Under persistent failure the loop runs exactly the remaining stagnation
budget and then emits every pending target as an error record. -/
theorem schedLoop_allfail (orc : Oracle) (b mr : Nat) (T : List String) (hT : T ≠ [])
    (hnew : ∀ r i, orc.newUrlOk r i = true)
    (hfail : ∀ r i t, orc.scrape r i t = ScrapeOutcome.exception ∨
      orc.scrape r i t = ScrapeOutcome.nullResp) :
    ∀ fuel np rs ls lf rd, np < mr → mr - np ≤ fuel →
      schedLoop orc b mr fuel
        { results := rs, n_failed := T.length, no_progress := np,
          batches := chunks b T, lastFailed := lf, lastSc := ls, round := rd }
        = some (Except.ok (rs.map OutRec.post ++
            T.map fun sc => OutRec.err sc "NOT_FETCHED" (mkErrMessage (T.getLastD "")))) := by
  intro fuel
  induction fuel with
  | zero =>
    intro np rs ls lf rd hnp hfuel
    omega
  | succ fuel ih =>
    intro np rs ls lf rd hnp hfuel
    unfold schedLoop
    dsimp only
    cases hch : chunks b T with
    | nil => exact absurd hch (chunks_ne_nil b T hT)
    | cons cb crest =>
      dsimp only
      rw [runRound_allfail orc rd (hnew rd) (fun i t => hfail rd i t) (cb :: crest) 0]
      dsimp only
      rw [← hch, flatten_chunks]
      rw [if_pos (le_refl T.length)]
      by_cases hmr : np + 1 = mr
      · rw [if_pos hmr]
        cases T with
        | nil => exact absurd rfl hT
        | cons x xs =>
          rw [nextLastSc_cons]
          dsimp only [emitErrors]
          rw [List.append_nil]
      · rw [if_neg hmr]
        have hrec := ih (np + 1) (rs ++ []) (nextLastSc ls T) (some T) (rd + 1)
          (by omega) (by omega)
        rw [List.append_nil] at hrec
        dsimp only [advance]
        rw [flatten_chunks, List.append_nil]
        exact hrec

/-- With fuel strictly below the remaining stagnation budget, the loop is
still running: under persistent failure it needs exactly that many rounds. -/
theorem schedLoop_allfail_short (orc : Oracle) (b mr : Nat) (T : List String) (hT : T ≠ [])
    (hnew : ∀ r i, orc.newUrlOk r i = true)
    (hfail : ∀ r i t, orc.scrape r i t = ScrapeOutcome.exception ∨
      orc.scrape r i t = ScrapeOutcome.nullResp) :
    ∀ fuel np rs ls lf rd, np < mr → fuel < mr - np →
      schedLoop orc b mr fuel
        { results := rs, n_failed := T.length, no_progress := np,
          batches := chunks b T, lastFailed := lf, lastSc := ls, round := rd }
        = none := by
  intro fuel
  induction fuel with
  | zero => intro np rs ls lf rd hnp hfuel; rfl
  | succ fuel ih =>
    intro np rs ls lf rd hnp hfuel
    unfold schedLoop
    dsimp only
    cases hch : chunks b T with
    | nil => exact absurd hch (chunks_ne_nil b T hT)
    | cons cb crest =>
      dsimp only
      rw [runRound_allfail orc rd (hnew rd) (fun i t => hfail rd i t) (cb :: crest) 0]
      dsimp only
      rw [← hch, flatten_chunks]
      rw [if_pos (le_refl T.length)]
      rw [if_neg (show ¬ np + 1 = mr by omega)]
      dsimp only [advance]
      rw [flatten_chunks]
      exact ih (np + 1) (rs ++ []) (nextLastSc ls T) (some T) (rd + 1) (by omega) (by omega)

/-! ### Claims C1, C2, C10 -/

/-- A payload that parses cleanly and carries the requested shortcode. -/
def goodPost (sc : String) : RawPost :=
  { (default : RawPost) with
      media := { (default : RawMediaNode) with shortcode := some sc }
      caption_texts := some [] }

/-- A payload whose caption query returns null, so `parse_post` raises
`TypeError` at `len(result["caption"])`. -/
def badPost : RawPost := default

/-- Oracle for the C1 counterexample: in round 0 the target "b" returns a
payload on which `parse_post` raises, interrupting the batch loop after "a"'s
record was already collected; from round 1 on every target succeeds. -/
def dupOracle : Oracle :=
  { newUrlOk := fun _ _ => true
    clientOk := fun _ _ => true
    scrape := fun round _ sc =>
      if round = 0 ∧ sc = "b" then ScrapeOutcome.payload badPost
      else ScrapeOutcome.payload (goodPost sc) }

/-- C1 counterexample: a completed run of the scheduler on the target list
["a", "b"] in which "b"'s round-0 payload makes `parse_post` raise.  The
batch-level handler re-adds the whole batch while keeping "a"'s alredy-parsed
record, so the output has three records and accounts for "a" twice — the
claim's "exactly once" fails. -/
theorem c1_counterexample :
    (fetch_posts_with_proxy dupOracle ["a", "b"] 10 3 3).map (Except.map (countFor "a"))
      = some (Except.ok 2) ∧
    (fetch_posts_with_proxy dupOracle ["a", "b"] 10 3 3).map (Except.map List.length)
      = some (Except.ok 3) := by
  constructor
  · rfl
  · rfl

/-- C1 (amended): every input target of a *completed* run is accounted for at
least once in the output — nothing is silently dropped — and exactly once
provided every fetched payload parses without an extraction error.  (A
mid-batch extraction error re-queues the entire batch while keeping the
records already parsed, so a target can be accounted for more than once.) -/
theorem c1_amended (orc : Oracle) (T : List String) (b mr fuel : Nat)
    (out : List OutRec) (hm : shortcodeMatches orc)
    (hdone : fetch_posts_with_proxy orc T b mr fuel = some (Except.ok out)) :
    (∀ t, strCount t T ≤ countFor t out) ∧
    (parsesCleanly orc → ∀ t, countFor t out = strCount t T) := by
  unfold fetch_posts_with_proxy at hdone
  constructor
  · intro t
    have h := schedLoop_count_ge orc b mr hm fuel _ out hdone
      (by intro fl hfl; cases hfl) t
    dsimp only at h
    rw [flatten_chunks, recCount_nil] at h
    omega
  · intro hc t
    have h := schedLoop_count_eq orc b mr hm hc fuel _ out hdone
      (by intro fl hfl; cases hfl) t
    dsimp only at h
    rw [flatten_chunks, recCount_nil] at h
    omega

/-- Oracle on which every target always succeeds with a clean payload. -/
def cleanOracle : Oracle :=
  { newUrlOk := fun _ _ => true
    clientOk := fun _ _ => true
    scrape := fun _ _ sc => ScrapeOutcome.payload (goodPost sc) }

/-- C1 witness: the amended theorem applied to a concrete clean run of two
targets with batch size 1: each target is accounted for exactly once. -/
theorem c1_witness :
    ∃ out, fetch_posts_with_proxy cleanOracle ["x", "y"] 1 3 2 = some (Except.ok out) ∧
      countFor "x" out = 1 ∧ countFor "y" out = 1 := by
  obtain ⟨out, hdone⟩ : ∃ out, fetch_posts_with_proxy cleanOracle ["x", "y"] 1 3 2
      = some (Except.ok out) := ⟨_, rfl⟩
  have hm : shortcodeMatches cleanOracle := by
    intro round i t p hp
    cases hp
    rfl
  have hc : parsesCleanly cleanOracle := by
    intro round i t p hp
    cases hp
    exact ⟨_, rfl⟩
  have h := (c1_amended cleanOracle ["x", "y"] 1 3 2 out hm hdone).2 hc
  refine ⟨out, hdone, ?_, ?_⟩
  · rw [h "x"]
    rfl
  · rw [h "y"]
    rfl

/-- Oracle on which every fetch attempt fails (scrape returns `None`). -/
def failOracle : Oracle :=
  { newUrlOk := fun _ _ => true
    clientOk := fun _ _ => true
    scrape := fun _ _ _ => ScrapeOutcome.nullResp }

/-- C2: if every fetch attempt fails in every round, the scheduler terminates
after exactly `max_retries` rounds — fuel `max_retries` completes the run,
fuel `max_retries - 1` does not — and every input target is emitted as a
NOT_FETCHED error record. -/
theorem c2_stagnation (orc : Oracle) (T : List String) (b mr fuel : Nat)
    (_hb : 1 ≤ b) (hmr : 1 ≤ mr) (hT : T ≠ [])
    (hnew : ∀ r i, orc.newUrlOk r i = true)
    (hfail : ∀ r i t, orc.scrape r i t = ScrapeOutcome.exception ∨
      orc.scrape r i t = ScrapeOutcome.nullResp)
    (hfuel : mr ≤ fuel) :
    fetch_posts_with_proxy orc T b mr fuel
      = some (Except.ok (T.map fun sc =>
          OutRec.err sc "NOT_FETCHED" (mkErrMessage (T.getLastD "")))) ∧
    fetch_posts_with_proxy orc T b mr (mr - 1) = none := by
  constructor
  · unfold fetch_posts_with_proxy
    have h := schedLoop_allfail orc b mr T hT hnew hfail fuel 0 [] none none 0
      (by omega) (by omega)
    rw [List.map_nil, List.nil_append] at h
    exact h
  · unfold fetch_posts_with_proxy
    exact schedLoop_allfail_short orc b mr T hT hnew hfail (mr - 1) 0 [] none none 0
      (by omega) (by omega)

/-- C2 witness: the stagnation theorem at a concrete all-fail run: two
targets, batch size 1, `max_retries = 2`; the run completes with fuel 2 and is
still looping with fuel 1, and both targets come back NOT_FETCHED. -/
theorem c2_witness :
    fetch_posts_with_proxy failOracle ["u", "v"] 1 2 5
      = some (Except.ok
          [OutRec.err "u" "NOT_FETCHED" "Failed to fetch v after retries.",
           OutRec.err "v" "NOT_FETCHED" "Failed to fetch v after retries."]) ∧
    fetch_posts_with_proxy failOracle ["u", "v"] 1 2 1 = none := by
  have h := c2_stagnation failOracle ["u", "v"] 1 2 5 (by omega) (by omega) (by simp)
    (fun r i => rfl) (fun r i t => Or.inr rfl) (by omega)
  constructor
  · exact h.1.trans (by rfl)
  · exact h.2

/-- C10: the output of every completed scheduler run is a block of success
records followed by the NOT_FETCHED error records; each error record carries
its own failed target in the shortcode field, while all of them carry the one
identical message built from the *last* shortcode of the final failed list
(the leaked loop variable of line 223), not from their own target. -/
theorem c10_error_message (orc : Oracle) (T : List String) (b mr fuel : Nat)
    (out : List OutRec)
    (hdone : fetch_posts_with_proxy orc T b mr fuel = some (Except.ok out)) :
    ∃ (posts : List PostRecord) (fl : List String), out = posts.map OutRec.post ++
      fl.map (fun sc => OutRec.err sc "NOT_FETCHED" (mkErrMessage (fl.getLastD ""))) := by
  unfold fetch_posts_with_proxy at hdone
  exact schedLoop_shape orc b mr fuel _ out hdone (by intro fl hfl; cases hfl)

/-- C10 witness: an all-fail run of ["a", "b"]: both error records carry the
message naming "b" (the last failed shortcode), including the record whose
own shortcode is "a". -/
theorem c10_witness :
    fetch_posts_with_proxy failOracle ["a", "b"] 1 1 1
      = some (Except.ok
          [OutRec.err "a" "NOT_FETCHED" "Failed to fetch b after retries.",
           OutRec.err "b" "NOT_FETCHED" "Failed to fetch b after retries."]) ∧
    (∃ (posts : List PostRecord) (fl : List String),
      ([OutRec.err "a" "NOT_FETCHED" "Failed to fetch b after retries.",
        OutRec.err "b" "NOT_FETCHED" "Failed to fetch b after retries."] : List OutRec)
        = posts.map OutRec.post ++
          fl.map (fun sc => OutRec.err sc "NOT_FETCHED" (mkErrMessage (fl.getLastD "")))) := by
  have hdone : fetch_posts_with_proxy failOracle ["a", "b"] 1 1 1
      = some (Except.ok
          [OutRec.err "a" "NOT_FETCHED" "Failed to fetch b after retries.",
           OutRec.err "b" "NOT_FETCHED" "Failed to fetch b after retries."]) := rfl
  exact ⟨hdone, c10_error_message failOracle ["a", "b"] 1 1 1 _ hdone⟩

/-! ## PaginationWalker: fetch_user_with_proxy (src/src/main.py, lines 73-156)

`page_size` and `user_id` only shape the request URL and are irrelevant to
the control flow; the server oracle maps (call index, current cursor) to the
outcome of that iteration's networking. -/

/-- One page of a user's timeline
(`data.user.edge_owner_to_timeline_media`).  `count` and `page_info` are
`Option`s because a missing key raises `KeyError` at the corresponding
access. -/
structure Timeline where
  edges : List RawPost
  count : Option Int
  page_info : Option PageInfo
deriving Repr, DecidableEq

/-- The outcome of one iteration's networking: `new_url()` raising (line 96
is inside the *outer* try only, so the outer handler ends the walk with the
posts collected so far), an exception inside the inner try (client
construction or the GET), or a response with a status code and the decoded
timeline (`none` = missing key path, i.e. `KeyError` at line 111 inside the
inner try). -/
inductive CallResult where
  | newUrlRaise
  | exc
  | resp (status : Nat) (body : Option Timeline)

/-- Result of the `for edge in timeline_media["edges"]` loop
(lines 113-123): the loop ran to completion, returned early at a記 record
older than the cutoff, or raised mid-loop. -/
inductive EdgesStep where
  | finished (posts : List PostRecord)
  | earlyRet (posts : List PostRecord)
  | excDuring (posts : List PostRecord)
deriving Repr, DecidableEq

/-- The edges loop: each node goes through `parse_post` (a raise escapes to
the inner handler, keeping the posts appended so far); with a date cutoff
set, a missing timestamp raises at `datetime.fromtimestamp(None)`, and a
timestamp strictly older than the cutoff returns the collected posts
immediately (line 121). -/
def processEdges (from_date : Option Int) : List RawPost → List PostRecord → EdgesStep
  | [], posts => EdgesStep.finished posts
  | node :: rest, posts =>
    match parse_post node with
    | Except.error _ => EdgesStep.excDuring posts
    | Except.ok post =>
      match from_date with
      | none => processEdges from_date rest (posts ++ [post])
      | some d =>
        match post.post_created with
        | none => EdgesStep.excDuring posts
        | some ts =>
          if ts < d then EdgesStep.earlyRet posts
          else processEdges from_date rest (posts ++ [post])

/-- The walker's loop state: collected posts, `page_number`, the `after`
cursor, `n_subsequent_errors`, and the call counter indexing the oracle. -/
structure WalkState where
  posts : List PostRecord
  page_number : Nat
  after : Option String
  nErr : Nat
  callIdx : Nat

/-- The `while True` loop of `fetch_user_with_proxy` (lines 95-151), one unit
of fuel per iteration.  Mirrored control flow: non-200 → break (line 106);
200 resets `n_subsequent_errors` (line 108) *before* the body, so every inner
exception afterwards reaches the handler with the counter at 0 — with
`max_retries = 0` it breaks, otherwise it continues with a fresh proxy; the
cutoff return, the `has_next_page` break, the cycle guard (line 134), and the
`max_pages` break follow in source order. -/
def walkLoop (server : Nat → Option String → CallResult) (from_date : Option Int)
    (max_pages max_retries : Nat) : Nat → WalkState → Option (List PostRecord)
  | 0, _ => none
  | fuel + 1, st =>
    match server st.callIdx st.after with
    | CallResult.newUrlRaise => some st.posts
    | CallResult.exc =>
      if st.nErr ≥ max_retries then some st.posts
      else walkLoop server from_date max_pages max_retries fuel
        { st with callIdx := st.callIdx + 1 }
    | CallResult.resp status body =>
      if status ≠ 200 then some st.posts
      else
        match body with
        | none =>
          if 0 ≥ max_retries then some st.posts
          else walkLoop server from_date max_pages max_retries fuel
            { st with nErr := 0, callIdx := st.callIdx + 1 }
        | some tl =>
          match processEdges from_date tl.edges st.posts with
          | EdgesStep.earlyRet ps => some ps
          | EdgesStep.excDuring ps =>
            if 0 ≥ max_retries then some ps
            else walkLoop server from_date max_pages max_retries fuel
              { st with posts := ps, nErr := 0, callIdx := st.callIdx + 1 }
          | EdgesStep.finished ps =>
            match tl.page_info with
            | none =>
              if 0 ≥ max_retries then some ps
              else walkLoop server from_date max_pages max_retries fuel
                { st with posts := ps, nErr := 0, callIdx := st.callIdx + 1 }
            | some pinfo =>
              if st.page_number = 1 ∧ tl.count = none then
                if 0 ≥ max_retries then some ps
                else walkLoop server from_date max_pages max_retries fuel
                  { st with posts := ps, nErr := 0, callIdx := st.callIdx + 1 }
              else
                if pinfo.has_next_page = false then some ps
                else if st.after = pinfo.end_cursor then some ps
                else if max_pages > 0 ∧ st.page_number + 1 > max_pages then some ps
                else walkLoop server from_date max_pages max_retries fuel
                  { posts := ps, page_number := st.page_number + 1,
                    after := pinfo.end_cursor, nErr := 0, callIdx := st.callIdx + 1 }

/-- `fetch_user_with_proxy` (lines 73-156): the walk from the initial state
(`after = None`, `page_number = 1`, no errors). -/
def fetch_user_with_proxy (server : Nat → Option String → CallResult)
    (from_date : Option Int) (max_pages max_retries fuel : Nat) :
    Option (List PostRecord) :=
  walkLoop server from_date max_pages max_retries fuel
    { posts := [], page_number := 1, after := none, nErr := 0, callIdx := 0 }

/-- The creation timestamp a node's parsed record carries, when it parses. -/
def parsedTS (n : RawPost) : Option Int :=
  match parse_post n with
  | Except.error _ => none
  | Except.ok r => r.post_created

/-- The node parses and its timestamp is not older than the cutoff. -/
def tsAtLeast (d : Int) (n : RawPost) : Bool :=
  match parsedTS n with
  | none => false
  | some ts => decide (d ≤ ts)

/-- The node parses and its timestamp is strictly older than the cutoff. -/
def tsBelow (d : Int) (n : RawPost) : Bool :=
  match parsedTS n with
  | none => false
  | some ts => decide (ts < d)

/-- The record a node parses to, when it parses. -/
def parsedRec (n : RawPost) : Option PostRecord := (parse_post n).toOption

/-- The edges loop with a cutoff: a page whose prefix is at or after the
cutoff and whose next record is strictly older returns exactly the parsed
prefix, in page order. -/
theorem processEdges_cutoff (d : Int) (stopNode : RawPost) (rest : List RawPost)
    (hstop : tsBelow d stopNode = true) :
    ∀ pre posts, (∀ n ∈ pre, tsAtLeast d n = true) →
      processEdges (some d) (pre ++ stopNode :: rest) posts
        = EdgesStep.earlyRet (posts ++ pre.filterMap parsedRec) := by
  intro pre
  induction pre with
  | nil =>
    intro posts hpre
    unfold tsBelow parsedTS at hstop
    rw [List.nil_append, List.filterMap_nil, List.append_nil]
    unfold processEdges
    cases hp : parse_post stopNode with
    | error e =>
      rw [hp] at hstop
      dsimp only at hstop
      cases hstop
    | ok r =>
      rw [hp] at hstop
      dsimp only at hstop ⊢
      cases hts : r.post_created with
      | none =>
        rw [hts] at hstop
        dsimp only at hstop
        cases hstop
      | some ts =>
        rw [hts] at hstop
        dsimp only at hstop ⊢
        rw [if_pos (of_decide_eq_true hstop)]
  | cons n pre ih =>
    intro posts hpre
    have hn := hpre n (List.mem_cons_self n pre)
    unfold tsAtLeast parsedTS at hn
    rw [List.cons_append]
    unfold processEdges
    cases hp : parse_post n with
    | error e =>
      rw [hp] at hn
      dsimp only at hn
      cases hn
    | ok r =>
      rw [hp] at hn
      dsimp only at hn ⊢
      cases hts : r.post_created with
      | none =>
        rw [hts] at hn
        dsimp only at hn
        cases hn
      | some ts =>
        rw [hts] at hn
        dsimp only at hn ⊢
        rw [if_neg (by
          have hd := of_decide_eq_true hn
          omega)]
        rw [ih (posts ++ [r]) (fun m hm => hpre m (List.mem_cons_of_mem n hm))]
        have hfm : (n :: pre).filterMap parsedRec = r :: pre.filterMap parsedRec := by
          rw [List.filterMap_cons]
          unfold parsedRec
          rw [hp]
          rfl
        rw [hfm]
        simp [List.append_assoc]

/-- C7: when the walker, with a date cutoff set, processes a 200 page whose
edge list contains a first record strictly older than the cutoff, it emits
the page's records in page order up to but not including that record and
stops the entire walk immediately — whatever `max_pages`, the remaining fuel
and the rest of the server's behaviour. -/
theorem c7_date_cutoff (server : Nat → Option String → CallResult) (d : Int)
    (max_pages max_retries fuel : Nat) (st : WalkState) (tl : Timeline)
    (pre : List RawPost) (stopNode : RawPost) (rest : List RawPost)
    (hresp : server st.callIdx st.after = CallResult.resp 200 (some tl))
    (hedges : tl.edges = pre ++ stopNode :: rest)
    (hpre : ∀ n ∈ pre, tsAtLeast d n = true)
    (hstop : tsBelow d stopNode = true) :
    walkLoop server (some d) max_pages max_retries (fuel + 1) st
      = some (st.posts ++ pre.filterMap parsedRec) := by
  unfold walkLoop
  rw [hresp]
  dsimp only
  rw [if_neg (by simp : ¬ ((200 : Nat) ≠ 200))]
  rw [hedges, processEdges_cutoff d stopNode rest hstop pre st.posts hpre]

/-- A clean payload carrying only a creation timestamp. -/
def tsPost (ts : Int) : RawPost :=
  { (default : RawPost) with caption_texts := some [], taken_at_timestamp := some ts }

/-- A single page with timestamps 5,4,3,2,1 claiming more pages exist. -/
def cutoffServer : Nat → Option String → CallResult := fun _ _ =>
  CallResult.resp 200 (some
    { edges := [tsPost 5, tsPost 4, tsPost 3, tsPost 2, tsPost 1]
      count := some 5
      page_info := some { has_next_page := true, end_cursor := some "next" } })

/-- C7 witness: page timestamps [5,4,3,2,1] with cutoff 3 and unlimited
`max_pages` emit exactly the three records timestamped 5, 4, 3 and stop. -/
theorem c7_witness :
    fetch_user_with_proxy cutoffServer (some 3) 0 3 9
      = some (([] : List PostRecord) ++
          [tsPost 5, tsPost 4, tsPost 3].filterMap parsedRec) ∧
    ([tsPost 5, tsPost 4, tsPost 3].filterMap parsedRec).length = 3 ∧
    ([tsPost 5, tsPost 4, tsPost 3].filterMap parsedRec).map PostRecord.post_created
      = [some 5, some 4, some 3] := by
  refine ⟨?_, rfl, rfl⟩
  exact c7_date_cutoff cutoffServer 3 0 3 8
    { posts := [], page_number := 1, after := none, nErr := 0, callIdx := 0 }
    { edges := [tsPost 5, tsPost 4, tsPost 3, tsPost 2, tsPost 1]
      count := some 5
      page_info := some { has_next_page := true, end_cursor := some "next" } }
    [tsPost 5, tsPost 4, tsPost 3] (tsPost 2) [tsPost 1]
    rfl rfl (by decide) (by decide)

/-- C9: when a 200 page is fully processed and its `end_cursor` equals the
cursor that was used to request it, the walker stops right after emitting the
page's records — the cycle guard ends the walk regardless of the remaining
fuel, `max_pages`, or any further server behaviour, so a repeating cursor can
never loop the walk. -/
theorem c9_cursor_cycle (server : Nat → Option String → CallResult)
    (from_date : Option Int) (max_pages max_retries fuel : Nat) (st : WalkState)
    (tl : Timeline) (pinfo : PageInfo) (ps : List PostRecord)
    (hresp : server st.callIdx st.after = CallResult.resp 200 (some tl))
    (hedges : processEdges from_date tl.edges st.posts = EdgesStep.finished ps)
    (hpi : tl.page_info = some pinfo)
    (hcount : ¬ (st.page_number = 1 ∧ tl.count = none))
    (hnext : pinfo.has_next_page = true)
    (hcycle : st.after = pinfo.end_cursor) :
    walkLoop server from_date max_pages max_retries (fuel + 1) st = some ps := by
  unfold walkLoop
  rw [hresp]
  dsimp only
  rw [if_neg (by simp : ¬ ((200 : Nat) ≠ 200))]
  rw [hedges]
  dsimp only
  rw [hpi]
  dsimp only
  rw [if_neg hcount, hnext]
  rw [if_neg (by simp : ¬ (true = false))]
  rw [if_pos hcycle]

/-- A server that answers the first request (cursor `None`) with a page whose
cursor is "c", and every request with cursor "c" with a page whose cursor is
again "c" — the same cursor twice in succession. -/
def cycleServer : Nat → Option String → CallResult := fun _ after =>
  match after with
  | none => CallResult.resp 200 (some
      { edges := [tsPost 9], count := some 2
        page_info := some { has_next_page := true, end_cursor := some "c" } })
  | some _ => CallResult.resp 200 (some
      { edges := [tsPost 8], count := none
        page_info := some { has_next_page := true, end_cursor := some "c" } })

/-- C9 witness: the mock server echoing cursor "c" twice in a row ends the
walk after the second page, with both pages' records emitted, even with
unlimited `max_pages` and plenty of fuel. -/
theorem c9_witness :
    fetch_user_with_proxy cycleServer none 0 3 5
      = some ([tsPost 9, tsPost 8].filterMap parsedRec) := by
  have h2 := c9_cursor_cycle cycleServer none 0 3 3
    { posts := [tsPost 9].filterMap parsedRec, page_number := 2, after := some "c",
      nErr := 0, callIdx := 1 }
    { edges := [tsPost 8], count := none
      page_info := some { has_next_page := true, end_cursor := some "c" } }
    { has_next_page := true, end_cursor := some "c" }
    ([tsPost 9, tsPost 8].filterMap parsedRec)
    rfl rfl rfl (by simp) rfl rfl
  calc fetch_user_with_proxy cycleServer none 0 3 5
      = walkLoop cycleServer none 0 3 4
          { posts := [tsPost 9].filterMap parsedRec, page_number := 2,
            after := some "c", nErr := 0, callIdx := 1 } := by rfl
    _ = some ([tsPost 9, tsPost 8].filterMap parsedRec) := h2

end InstaPosts
